import Mathlib

/-!
A verification development for the staged 2SLS (two-stage least squares)
estimation engine of `src/causality/2sls_iv/iv_2sls_2_instruments.py`.

The Python code operates on pandas DataFrames and fits OLS regressions with
`statsmodels.api.OLS`.  We embed it shallowly:

* a DataFrame is a rectangular table of optional rationals (`none` models a
  float NaN, `some q` a finite float; the analysis is exact arithmetic over ℚ,
  which is faithful for the control-flow and algebraic facts proved here);
* pandas `KeyError` on a missing column, numpy's `LinAlgError` (raised by
  `np.linalg.pinv` when the design matrix contains NaN) and the propagation of
  NaN statistics out of a fit with NaN endogenous values are modelled by the
  `Except PdError` monad;
* `sm.OLS(y, X).fit()` uses the Moore-Penrose pseudoinverse (statsmodels'
  default `method="pinv"`): it never raises on a rank-deficient or
  underdetermined design and always produces a result object.  We compute the
  pseudoinverse of the Gram matrix Xᵀ X exactly over ℚ via a full-rank
  factorization obtained from the reduced row echelon form;
* quantities that are irrational in general (standard errors, i.e. square
  roots, and the t- and F-distribution p-values) are represented by their
  exact rational determinants: a standard error by its square, a two-sided
  t-test p-value by the pair (t², df_resid) — the p-value is the image of that
  pair under a fixed strictly monotone function — and the regression F p-value
  by the triple (F, df_model, df_resid).  Equality of the determinants is
  equivalent to equality of the floating point statistics they determine;
* `print` side effects are modelled by an explicit log of emitted items, and
  the matplotlib chart by a pure record of everything the plotting code draws.

In-place mutation of a DataFrame argument (the Python line
`data['D_hat'] = ...` mutates the frame object passed by the caller) is
modelled by returning the post-call state of the argument next to the result.
-/

namespace IV2SLS

/-- A cell of a pandas DataFrame: `none` models a float NaN (a missing value),
`some q` a finite float. -/
abbrev Cell := Option ℚ

/-- A pandas DataFrame: a list of column names and a list of rows, each row a
list of cells positionally aligned with `cols`. -/
structure DataFrame where
  cols : List String
  rows : List (List Cell)
deriving DecidableEq

/-- A well-formed (rectangular) frame: every row has one cell per column.
pandas frames are always rectangular. -/
def Wf (df : DataFrame) : Prop :=
  ∀ r ∈ df.rows, r.length = df.cols.length

instance (df : DataFrame) : Decidable (Wf df) := by
  unfold Wf; infer_instance

/-- Index of column `c` in the column list (0 if absent; use only after a
presence check, mirroring pandas label lookup). -/
def colIdxD (cols : List String) (c : String) : ℕ :=
  (List.findIdx? (fun s => s == c) cols).getD 0

/-- The cell of row `r` in column `c` of a frame with columns `cols`. -/
def cellAt (cols : List String) (c : String) (r : List Cell) : Cell :=
  r.getD (colIdxD cols c) none

/-- Errors surfaced by the pandas / numpy / statsmodels layer.

* `missingColumns` — pandas `KeyError`: the listed requested labels are absent.
* `linalgNaN` — numpy `LinAlgError` out of `np.linalg.pinv` when the design
  matrix (exog) contains NaN; statsmodels' `OLS(...).fit()` computes
  `pinv(exog)` so a NaN design raises.
* `nanStatistics` — the endogenous vector contains NaN while the design is
  finite: statsmodels then returns a result whose statistics are all NaN,
  a value with no exact rational counterpart, so the embedding flags it. -/
inductive PdError
  | missingColumns (names : List String)
  | linalgNaN
  | nanStatistics
deriving DecidableEq

/-- Python `data[c]` for a single label `c`: the column as a list of cells, or a
`KeyError` when the label is absent. -/
def getColumn (df : DataFrame) (c : String) : Except PdError (List Cell) :=
  if c ∈ df.cols then .ok (df.rows.map (cellAt df.cols c))
  else .error (.missingColumns [c])

/-- Row projection onto the labels `names` (positional cells of the named
columns, in the order of `names`). -/
def projRow (cols names : List String) (r : List Cell) : List Cell :=
  names.map (fun c => cellAt cols c r)

/-- Python `data[names]` for a list of labels: the projected rows, or a `KeyError`
listing every absent label. -/
def selectCols (df : DataFrame) (names : List String) : Except PdError (List (List Cell)) :=
  match names.filter (fun c => !(df.cols.contains c)) with
  | [] => .ok (df.rows.map (projRow df.cols names))
  | missing => .error (.missingColumns missing)

/-- Python `data[c] = vals`: overwrite column `c` when present, else append it as the
last column (pandas places a new column at the end). -/
def setColumn (df : DataFrame) (c : String) (vals : List Cell) : DataFrame :=
  if c ∈ df.cols then
    ⟨df.cols, df.rows.zipWith (fun r v => r.set (colIdxD df.cols c) v) vals⟩
  else
    ⟨df.cols ++ [c], df.rows.zipWith (fun r v => r ++ [v]) vals⟩

/-- pandas `DataFrame.copy()`: on values this is the identity; its point is object
identity — the copy is a fresh object, so in-place writes to the copy are
invisible through the original.  The embedding threads each function's
mutation of its own argument explicitly, so copying truncates that thread. -/
def DataFrame.copy (df : DataFrame) : DataFrame := df

/-- Python's substring containment `pat in s` on strings. -/
def isPrefixChars : List Char → List Char → Bool
  | [], _ => true
  | _ :: _, [] => false
  | a :: as, b :: bs => a == b && isPrefixChars as bs

/-- Auxiliary scan for `occursIn`. -/
def containsSeq (pat : List Char) : List Char → Bool
  | [] => isPrefixChars pat []
  | b :: rest => isPrefixChars pat (b :: rest) || containsSeq pat rest

/-- Python `pat in s` for strings: `pat` occurs as a contiguous substring. -/
def occursIn (pat s : String) : Bool :=
  containsSeq pat.toList s.toList

/-! Exact linear algebra.

Matrices are lists of rows over ℚ.  `rref` computes the reduced row echelon
form together with the pivot columns; `pinvSym` computes the Moore-Penrose
pseudoinverse of a symmetric matrix through the full-rank factorization
`A = B C` (`C` = nonzero rows of the RREF of `A`, `B` = pivot columns of `A`),
for which `A⁺ = Cᵀ (C Cᵀ)⁻¹ (Bᵀ B)⁻¹ Bᵀ`.  This is the exact counterpart of
the pseudoinverse that numpy computes by SVD inside `statsmodels`' OLS. -/

/-- Dot product (truncating to the shorter list). -/
def dotQ (a b : List ℚ) : ℚ :=
  (a.zipWith (fun x y => x * y) b).sum

/-- Matrix–vector product. -/
def matVec (m : List (List ℚ)) (v : List ℚ) : List ℚ :=
  m.map (fun row => dotQ row v)

/-- Transpose of a matrix with `ncols` columns (rows read positionally,
missing entries 0). -/
def transposeQ (m : List (List ℚ)) (ncols : ℕ) : List (List ℚ) :=
  (List.range ncols).map (fun j => m.map (fun r => r.getD j 0))

/-- Matrix product where `b` has `bcols` columns. -/
def matMul (a b : List (List ℚ)) (bcols : ℕ) : List (List ℚ) :=
  a.map (fun ar => (transposeQ b bcols).map (fun bc => dotQ ar bc))

/-- The k×k identity matrix. -/
def idMat (k : ℕ) : List (List ℚ) :=
  (List.range k).map (fun i => (List.range k).map (fun j => if i = j then 1 else 0))

/-- Subtract `r.getD j 0` times the (normalized) pivot row `piv` from `r`,
clearing column `j` of `r`. -/
def elimStep (j : ℕ) (piv r : List ℚ) : List ℚ :=
  r.zipWith (fun x p => x - r.getD j 0 * p) piv

/-- Find the first row whose entry in column `j` is nonzero; return it with
the remaining rows in order. -/
def extractPivot (j : ℕ) : List (List ℚ) → Option (List ℚ × List (List ℚ))
  | [] => none
  | r :: rs =>
    if r.getD j 0 != 0 then some (r, rs)
    else
      match extractPivot j rs with
      | some (p, rest) => some (p, r :: rest)
      | none => none

/-- Gauss–Jordan elimination over the listed columns.  `done` are finished
pivot rows (reduced in all processed pivot columns), `rem` the rows not yet
chosen as pivots, `pivs` the pivot columns found so far. -/
def rrefGo : List ℕ → List (List ℚ) → List (List ℚ) → List ℕ →
    List (List ℚ) × List ℕ
  | [], done, _rem, pivs => (done, pivs)
  | j :: js, done, rem, pivs =>
    match extractPivot j rem with
    | none => rrefGo js done rem pivs
    | some (p, rest) =>
      let pn := p.map (fun x => x / p.getD j 0)
      rrefGo js (done.map (elimStep j pn) ++ [pn]) (rest.map (elimStep j pn)) (pivs ++ [j])

/-- Reduced row echelon form over the first `ncols` columns: the nonzero rows
in pivot order, and the (strictly increasing) pivot column indices. -/
def rref (m : List (List ℚ)) (ncols : ℕ) : List (List ℚ) × List ℕ :=
  rrefGo (List.range ncols) [] m []

/-- Inverse of an invertible k×k matrix via elimination on `[m | I]`
(unspecified junk on singular input; used only on invertible matrices). -/
def invSq (k : ℕ) (m : List (List ℚ)) : List (List ℚ) :=
  ((rref (m.zipWith (fun row e => row ++ e) (idMat k)) k).1).map (fun r => r.drop k)

/-- Moore-Penrose pseudoinverse of a symmetric k×k matrix (see section
comment).  On the zero matrix this correctly returns the zero matrix. -/
def pinvSym (k : ℕ) (a : List (List ℚ)) : List (List ℚ) :=
  let rp := rref a k
  let c := rp.1
  let r := rp.2.length
  let b := a.map (fun row => rp.2.map (fun j => row.getD j 0))
  let ct := transposeQ c k
  let bt := transposeQ b r
  matMul (matMul (matMul ct (invSq r (matMul c ct r)) r) (invSq r (matMul bt b r)) r) bt k

/-! The OLS fit, `sm.OLS(endog, exog).fit()`.

`olsStats` computes every statistic the repository reads off a fitted
statsmodels OLS results object, exactly over ℚ, from the observation list
(design row, endogenous value).  Formulas follow statsmodels' `OLS` with its
default `method="pinv"` and a design containing a constant column (the code
always passes the design through `sm.add_constant`), so:

* `params = (XᵀX)⁺ Xᵀy` (the minimum-norm least squares solution — for a
  full-rank design the unique OLS solution);
* `rank` = matrix rank of the design, `df_resid = nobs - rank`,
  `df_model = rank - k_constant` with `k_constant = 1`;
* `scale = ssr / df_resid`, `cov_params = scale * (XᵀX)⁺`, `bse = sqrt` of its
  diagonal (we carry the squares `bseSq`);
* two-sided p-values come from the t distribution with `df_resid` degrees of
  freedom evaluated at `|t| = |param| / bse` (we carry `tSq = t²`);
* `rsquared = 1 - ssr / centered_tss`, `ess = centered_tss - ssr`,
  `fvalue = (ess / df_model) / (ssr / df_resid)`, and `f_pvalue` is the
  F(df_model, df_resid) survival function at `fvalue`.

Divisions by zero (e.g. `df_resid = 0`, an exact zero `ssr`, or a zero
`centered_tss`) yield `inf`/`nan` floats in Python without raising; in ℚ the
convention `x / 0 = 0` applies.  No theorem below inspects a statistic built
by a division by zero. -/

/-- Everything the repository reads off a fitted OLS results object.  The
exogenous variable names index `params`/`bseSq`/`tSq` positionally. -/
structure OLSFit where
  exogNames : List String
  params : List ℚ
  bseSq : List ℚ
  tSq : List ℚ
  dfResid : ℕ
  dfModel : ℕ
  nobs : ℕ
  rsquared : ℚ
  fvalue : ℚ
deriving DecidableEq

/-- Fit an OLS regression: `names` label the design columns, each observation
is a design row together with its endogenous value. -/
def olsStats (names : List String) (obs : List (List ℚ × ℚ)) : OLSFit :=
  let k := names.length
  let n := obs.length
  let gram := (List.range k).map (fun i => (List.range k).map (fun j =>
    (obs.map (fun o => o.1.getD i 0 * o.1.getD j 0)).sum))
  let xty := (List.range k).map (fun i => (obs.map (fun o => o.1.getD i 0 * o.2)).sum)
  let yty := (obs.map (fun o => o.2 * o.2)).sum
  let sumY := (obs.map (fun o => o.2)).sum
  let pg := pinvSym k gram
  let params := matVec pg xty
  let ssr := yty - dotQ params xty
  let rank := (rref gram k).2.length
  let dfResid := n - rank
  let dfModel := rank - 1
  let scale := ssr / (dfResid : ℚ)
  let covDiag := (List.range k).map (fun i => (pg.getD i []).getD i 0)
  let bseSq := covDiag.map (fun v => scale * v)
  let tSq := params.zipWith (fun p b => p * p / b) bseSq
  let centeredTss := yty - sumY * sumY / (n : ℚ)
  let rsquared := 1 - ssr / centeredTss
  let fvalue := ((centeredTss - ssr) / (dfModel : ℚ)) / (ssr / (dfResid : ℚ))
  { exogNames := names, params := params, bseSq := bseSq, tSq := tSq,
    dfResid := dfResid, dfModel := dfModel, nobs := n,
    rsquared := rsquared, fvalue := fvalue }

/-- The per-coefficient determinants of the two-sided t-test p-values:
`(t², df_resid)` per exogenous column.  The p-value is
`2 * sf_t(sqrt t²; df_resid)`, a fixed strictly monotone function of this
pair, so equality of pairs is equality of p-values. -/
def OLSFit.pvalKeys (m : OLSFit) : List (ℚ × ℕ) :=
  m.tSq.map (fun t => (t, m.dfResid))

/-- The determinant of the regression F-test p-value:
`(F, df_model, df_resid)`; the p-value is the F survival function at `F`. -/
def OLSFit.fPValueKey (m : OLSFit) : ℚ × ℕ × ℕ :=
  (m.fvalue, m.dfModel, m.dfResid)

/-- statsmodels `model.predict(X)`: fitted values `X β̂` for the given design rows
(cells are finite wherever a fit was produced; NaN cells read as 0 is a
dead branch there). -/
def OLSFit.predictRows (m : OLSFit) (exog : List (List Cell)) : List ℚ :=
  exog.map (fun r => dotQ (r.map (fun c => c.getD 0)) m.params)

/-- A column consisting of one repeated nonzero finite value.  This is the
test statsmodels' `add_constant` (default `has_constant="skip"`) applies to
decide whether a constant column is already present: peak-to-peak 0 and first
entry nonzero; a NaN anywhere fails it. -/
def isNonzeroConst (col : List Cell) : Bool :=
  match col with
  | [] => false
  | c :: rest =>
    match c with
    | some q => q != 0 && rest.all (fun x => x == some q)
    | none => false

/-- Whether some of the first `ncols` columns of `rows` is a nonzero constant
column. -/
def hasNonzeroConstCol (ncols : ℕ) (rows : List (List Cell)) : Bool :=
  (List.range ncols).any (fun j => isNonzeroConst (rows.map (fun r => r.getD j none)))

/-- Model of `sm.add_constant(data)` with the statsmodels defaults `prepend=True`,
`has_constant="skip"`: prepend a column of ones named `const`, unless some
existing column is a nonzero constant, in which case the data is returned
unchanged. -/
def addConstant (names : List String) (rows : List (List Cell)) :
    List String × List (List Cell) :=
  if hasNonzeroConstCol names.length rows then (names, rows)
  else ("const" :: names, rows.map (fun r => some 1 :: r))

/-- Pair each design row with its endogenous value, reading cells as exact
rationals (callers establish that no cell is NaN before this point). -/
def mkObs (exog : List (List Cell)) (endog : List Cell) : List (List ℚ × ℚ) :=
  exog.zipWith (fun r y => (r.map (fun c => c.getD 0), y.getD 0)) endog

/-- Model of `sm.OLS(endog, exog).fit()`: raises numpy's `LinAlgError` when the design
contains NaN (`np.linalg.pinv` fails to converge), is flagged when only the
endogenous values contain NaN (statsmodels would silently produce all-NaN
statistics, which ℚ cannot represent), and otherwise always returns a fit —
rank-deficient or underdetermined designs included, thanks to the
pseudoinverse. -/
def olsRun (names : List String) (exog : List (List Cell)) (endog : List Cell) :
    Except PdError OLSFit :=
  if exog.any (fun r => r.any (fun c => c.isNone)) then .error .linalgNaN
  else if endog.any (fun c => c.isNone) then .error .nanStatistics
  else .ok (olsStats names (mkObs exog endog))

/-! The single-stage estimator: `perform_2sls_analysis`, source lines 30-57. -/

/-- One emitted `print` item: either a literal text line or a regression
summary of a fitted model (the summary text is a rendering of the fit's
statistics, so the fit itself is the faithful representation). -/
inductive LogLine
  | text (s : String)
  | modelSummary (m : OLSFit)
deriving DecidableEq

/-- The dict returned by `perform_2sls_analysis` (source lines 48-57).  The
pandas Series `second_stage_params` / `bse` / `pvalues` are association lists
from exogenous column name to value; `bse` values are carried squared and
p-values by their `(t², df_resid)` determinants, see `olsStats`. -/
structure TwoSLSResult where
  second_stage_model : OLSFit
  first_stage_model : OLSFit
  second_stage_params : List (String × ℚ)
  second_stage_bseSq : List (String × ℚ)
  second_stage_pvalKeys : List (String × (ℚ × ℕ))
  second_stage_rsquared : ℚ
  first_stage_fvalue : ℚ
  first_stage_fpvalKey : ℚ × ℕ × ℕ
deriving DecidableEq

/-- Lookup `series[key]` on a pandas Series represented as an association list (the
keys used by the repository are always present; the default is dead code). -/
def seriesGet (s : List (String × ℚ)) (key : String) : ℚ :=
  ((s.find? (fun p => p.1 == key)).map (fun p => p.2)).getD 0

/-- Source lines 30-57.  Returns the post-call state of the `data` argument
(the line `data['D_hat'] = first_stage_model.predict(X1)` mutates the frame
object passed by the caller), the returned dict, and the printed output.

First stage: OLS of `data[treatment_var]` on
`sm.add_constant(data[instr_vars + control_vars])`; then
`data['D_hat'] = first_stage_model.predict(X1)`; second stage: OLS of
`data[outcome_var]` on `sm.add_constant(data[['D_hat'] + control_vars])`.
Summaries of both fits are printed when `"summary" in display`. -/
def perform_2sls_analysis (data : DataFrame) (outcome_var : String)
    (instr_vars : List String) (treatment_var : String)
    (control_vars : List String) (display : String := "none") :
    Except PdError (DataFrame × TwoSLSResult × List LogLine) :=
  (selectCols data (instr_vars ++ control_vars)).bind (fun sel1 =>
  let x1p := addConstant (instr_vars ++ control_vars) sel1
  (getColumn data treatment_var).bind (fun tcol =>
  (olsRun x1p.1 x1p.2 tcol).bind (fun first =>
  let data2 := setColumn data "D_hat" ((first.predictRows x1p.2).map some)
  let log1 : List LogLine :=
    if occursIn "summary" display then
      [.text "First-stage Regression Summary:", .modelSummary first]
    else []
  (selectCols data2 ("D_hat" :: control_vars)).bind (fun sel2 =>
  let x2p := addConstant ("D_hat" :: control_vars) sel2
  (getColumn data2 outcome_var).bind (fun ycol =>
  (olsRun x2p.1 x2p.2 ycol).bind (fun second =>
  let log2 : List LogLine :=
    if occursIn "summary" display then
      [.text "Second-stage Regression Summary:", .modelSummary second]
    else []
  .ok (data2,
    { second_stage_model := second
      first_stage_model := first
      second_stage_params := x2p.1.zip second.params
      second_stage_bseSq := x2p.1.zip second.bseSq
      second_stage_pvalKeys := x2p.1.zip second.pvalKeys
      second_stage_rsquared := second.rsquared
      first_stage_fvalue := first.fvalue
      first_stage_fpvalKey := first.fPValueKey },
    log1 ++ log2)))))))

/-! The staged orchestrator: `analyze_2sls_by_stage`, source lines 60-88. -/

/-- One element of the `results` list built at source lines 74-82 (keys
`stage`, `2sls_iv`, `std_error`, `p_value`, `r_squared`, `f_stat`,
`f_p_value`; the standard error is carried squared and the p-values by their
determinants, see `olsStats`). -/
structure StageRecord where
  stage : Cell
  iv_2sls : ℚ
  std_errorSq : ℚ
  p_valueKey : ℚ × ℕ
  r_squared : ℚ
  f_stat : ℚ
  f_p_valueKey : ℚ × ℕ × ℕ
deriving DecidableEq

/-- Assemble the per-stage record from the dict returned by
`perform_2sls_analysis` (source lines 74-82): every inferential field is the
entry of the corresponding second-stage Series at label `D_hat`, plus the
second-stage R² and the first-stage F statistic and F p-value. -/
def mkStageRecord (stage : Cell) (ar : TwoSLSResult) : StageRecord where
  stage := stage
  iv_2sls := seriesGet ar.second_stage_params "D_hat"
  std_errorSq := seriesGet ar.second_stage_bseSq "D_hat"
  p_valueKey :=
    (((ar.second_stage_pvalKeys.find? (fun p => p.1 == "D_hat")).map
      (fun p => p.2)).getD (0, 0))
  r_squared := ar.second_stage_rsquared
  f_stat := ar.first_stage_fvalue
  f_p_valueKey := ar.first_stage_fpvalKey

/-- numpy `==` between two float cells: NaN compares unequal to everything,
including itself (so a NaN stage mask selects no rows). -/
def cellEqNum (a b : Cell) : Bool :=
  match a, b with
  | some x, some y => x == y
  | _, _ => false

/-- numpy ascending sort order on float cells: NaN sorts after every number
(and the embedding treats two NaNs as tied). -/
def cellLe (a b : Cell) : Bool :=
  match a, b with
  | some x, some y => x ≤ y
  | some _, none => true
  | none, some _ => false
  | none, none => true

/-- The sort order as a relation, for `List.insertionSort`. -/
def cellLeR (a b : Cell) : Prop := cellLe a b = true

instance : DecidableRel cellLeR := fun a b =>
  inferInstanceAs (Decidable (cellLe a b = true))

/-- Model of `stages_df['stage'].unique()` followed by in-place `sort()` (source lines
61-62): the distinct stage values in ascending order. -/
def uniqueSortedStages (stageCol : List Cell) : List Cell :=
  List.insertionSort cellLeR stageCol.dedup

/-- Model of `stages_df[stages_df['stage'] == stage]`: the rows whose `stage` cell
equals the given value (same columns). -/
def stageFilter (df : DataFrame) (s : Cell) : DataFrame :=
  ⟨df.cols, df.rows.filter (fun r => cellEqNum (cellAt df.cols "stage" r) s)⟩

/-- The per-stage summaries entry (source lines 83-86): the two summary texts
are renderings of the two fitted models, represented by the fits. -/
structure StageSummaries where
  first_stage_summary : OLSFit
  second_stage_summary : OLSFit
deriving DecidableEq

/-- The loop body of `analyze_2sls_by_stage` (source lines 67-86) over the
remaining stage values: for each stage, print the banner when requested,
filter-and-copy the stage slice, run the estimator on the copy (whose
in-place `D_hat` write therefore never touches `stages_df`), and collect the
record and summaries.  An estimator exception aborts the whole loop, as an
uncaught Python exception would. -/
def analyzeGo (stages_df : DataFrame) (outcome_var : String)
    (instr_vars : List String) (treatment_var : String)
    (control_vars : List String) (display : String) :
    List Cell →
    Except PdError (List StageRecord × List (Cell × StageSummaries) × List LogLine)
  | [] => .ok ([], [], [])
  | s :: rest =>
    let log0 : List LogLine :=
      if occursIn "summary" display then [.text "Running Stage"] else []
    ((perform_2sls_analysis (stageFilter stages_df s).copy outcome_var instr_vars
        treatment_var control_vars display).bind (fun out =>
    (analyzeGo stages_df outcome_var instr_vars treatment_var control_vars
        display rest).bind (fun tl =>
    .ok (mkStageRecord s out.2.1 :: tl.1,
      (s, ⟨out.2.1.first_stage_model, out.2.1.second_stage_model⟩) :: tl.2.1,
      log0 ++ out.2.2 ++ tl.2.2))))

/-- Source lines 60-88.  Enumerates the distinct `stage` values in ascending
order and runs `perform_2sls_analysis` on each stage's filtered copy,
returning the records in stage order, the summaries keyed by stage, the
printed output, and — last — the post-call state of the caller's
`stages_df`, which is `stages_df` itself: the boolean-mask selection builds a
new frame and `.copy()` detaches it, so the estimator's in-place `D_hat`
write lands on a per-stage scratch frame (source line 70). -/
def analyze_2sls_by_stage (stages_df : DataFrame) (outcome_var : String)
    (instr_vars : List String) (treatment_var : String)
    (control_vars : List String) (display : String := "none") :
    Except PdError
      (List StageRecord × List (Cell × StageSummaries) × List LogLine × DataFrame) :=
  (getColumn stages_df "stage").bind (fun stageCol =>
  (analyzeGo stages_df outcome_var instr_vars treatment_var control_vars display
      (uniqueSortedStages stageCol)).bind (fun out =>
  .ok (out.1, out.2.1, out.2.2, stages_df)))

/-! Imputation: `impute_opponent_rank`, source lines 21-27. -/

/-- Source lines 21-27: replace every NaN in column
`opponent_league_rank_prev` by `placeholder_rank` (default 25), via a
row-wise `apply` whose result is written back onto the column; each row's
other cells only feed the lambda's `row` argument and are untouched.  Reading
`row['opponent_league_rank_prev']` raises a `KeyError` when the column is
absent.  Returns the resulting frame (which in Python is also the mutated
argument). -/
def impute_opponent_rank (data : DataFrame) (placeholder_rank : ℚ := 25) :
    Except PdError DataFrame :=
  if "opponent_league_rank_prev" ∈ data.cols then
    .ok (setColumn data "opponent_league_rank_prev"
      (data.rows.map (fun r =>
        match cellAt data.cols "opponent_league_rank_prev" r with
        | none => some placeholder_rank
        | some v => some v)))
  else .error (.missingColumns ["opponent_league_rank_prev"])

/-! Plotting: `plot_causal_effect`, source lines 91-147.

The matplotlib calls are I/O; what is modelled is every piece of data the
function computes and hands to them, and — decisively — the guard
`if "plot" in display` enclosing all of them. -/

/-- Fueled recursion for `format_controls` (source lines 92-98): split the control names into
chunks of 4, join each chunk with a comma, join the chunks with an indented
line break. -/
def format_controls_go : ℕ → List String → List (List String)
  | 0, _ => []
  | _, [] => []
  | fuel + 1, l => l.take 4 :: format_controls_go fuel (l.drop 4)

/-- The chunk structure underlying `format_controls`. -/
def format_controls_chunks (control_vars : List String) : List (List String) :=
  format_controls_go control_vars.length control_vars

/-- The function `format_controls` itself: the caption string for the controls. -/
def format_controls (control_vars : List String) : String :=
  String.intercalate "\n            "
    ((format_controls_chunks control_vars).map (String.intercalate ", "))

/-- The `variables` dict argument of `plot_causal_effect`; `.get` misses are
`none`, and `control_vars` defaults to `[]` at the read site. -/
structure VariablesSpec where
  outcome_var : Option String
  treatment_var : Option String
  instrument_vars : Option (List String)
  control_vars : Option (List String)
deriving DecidableEq

/-- The three-way title selection of source lines 116-121. -/
def plotTitle (outcome_var : Option String) : String :=
  if outcome_var == some "team_rank_diff" then
    "Causal Effect of Advancing per Round on League Standing"
  else if outcome_var == some "next_team_points" then
    "Causal Effect of Advancing per Round on Next Fixture Performance"
  else
    "Causal Effect of Advancing per Round on Performance"

/-- The chart artifact: one error bar per result row (stage, estimate,
standard error — carried squared), the title, the caption fields, and the
output location `os.path.join(country_plots_dir, filename)`. -/
structure Chart where
  points : List (Cell × ℚ × ℚ)
  title : String
  captionOutcome : Option String
  captionTreatment : Option String
  captionInstruments : String
  captionControls : String
  saveDir : String
  saveFile : String
deriving DecidableEq

/-- Source lines 91-147: everything — figure, error bars, legend, caption,
`savefig`, `show` — sits inside `if "plot" in display:`, so a chart artifact
is produced exactly when `"plot"` occurs in `display`, and `none` models "no
chart".  (The `', '.join(instrument_vars)` on line 129 requires
`instrument_vars` to be present in the dict; theorems about this function
assume that, since on a missing key Python would raise a `TypeError`
instead of producing the chart.) -/
def plot_causal_effect (varSpec : VariablesSpec) (results : List StageRecord)
    (country_plots_dir : String) (display : String := "none")
    (filename : String := "causal_effect_by_stage.png") : Option Chart :=
  if occursIn "plot" display then
    some
      { points := results.map (fun row => (row.stage, row.iv_2sls, row.std_errorSq))
        title := plotTitle varSpec.outcome_var
        captionOutcome := varSpec.outcome_var
        captionTreatment := varSpec.treatment_var
        captionInstruments := String.intercalate ", " (varSpec.instrument_vars.getD [])
        captionControls := format_controls (varSpec.control_vars.getD [])
        saveDir := country_plots_dir
        saveFile := filename }
  else none

/-! Derived views of the estimator pipeline.

Named stages of `perform_2sls_analysis`, used to state theorems.  Each is
definitionally the corresponding intermediate value of the function body on
the non-exceptional path. -/

/-- Every name in `names` is a column of `df`. -/
def ColsPresent (df : DataFrame) (names : List String) : Prop :=
  ∀ c ∈ names, c ∈ df.cols

instance (df : DataFrame) (names : List String) : Decidable (ColsPresent df names) := by
  unfold ColsPresent; infer_instance

/-- No cell of the named columns is NaN. -/
def CleanCols (df : DataFrame) (names : List String) : Prop :=
  ∀ c ∈ names, ∀ r ∈ df.rows, (cellAt df.cols c r).isSome = true

instance (df : DataFrame) (names : List String) : Decidable (CleanCols df names) := by
  unfold CleanCols; infer_instance

/-- The columns referenced by an estimation call. -/
def refCols (outcome_var treatment_var : String) (instr_vars control_vars : List String) :
    List String :=
  outcome_var :: treatment_var :: (instr_vars ++ control_vars)

/-- View of `data[instr_vars + control_vars]`: the selected first-stage data rows. -/
def x1Sel (df : DataFrame) (iv cv : List String) : List (List Cell) :=
  df.rows.map (projRow df.cols (iv ++ cv))

/-- View of `X1 = sm.add_constant(data[instr_vars + control_vars])`: names and rows. -/
def x1Design (df : DataFrame) (iv cv : List String) : List String × List (List Cell) :=
  addConstant (iv ++ cv) (x1Sel df iv cv)

/-- View of `data[treatment_var]`. -/
def treatCol (df : DataFrame) (tv : String) : List Cell :=
  df.rows.map (cellAt df.cols tv)

/-- View of `first_stage_model = sm.OLS(data[treatment_var], X1).fit()`. -/
def firstFit (df : DataFrame) (iv : List String) (tv : String) (cv : List String) : OLSFit :=
  olsStats (x1Design df iv cv).1 (mkObs (x1Design df iv cv).2 (treatCol df tv))

/-- View of `first_stage_model.predict(X1)`. -/
def dhatVals (df : DataFrame) (iv : List String) (tv : String) (cv : List String) : List ℚ :=
  (firstFit df iv tv cv).predictRows (x1Design df iv cv).2

/-- The state of `data` after `data['D_hat'] = first_stage_model.predict(X1)`. -/
def postFrame (df : DataFrame) (iv : List String) (tv : String) (cv : List String) :
    DataFrame :=
  setColumn df "D_hat" ((dhatVals df iv tv cv).map some)

/-- View of `data[['D_hat'] + control_vars]` read from the post-assignment frame. -/
def x2Sel (df : DataFrame) (iv : List String) (tv : String) (cv : List String) :
    List (List Cell) :=
  (postFrame df iv tv cv).rows.map (projRow (postFrame df iv tv cv).cols ("D_hat" :: cv))

/-- View of `X2 = sm.add_constant(data[['D_hat'] + control_vars])`. -/
def x2Design (df : DataFrame) (iv : List String) (tv : String) (cv : List String) :
    List String × List (List Cell) :=
  addConstant ("D_hat" :: cv) (x2Sel df iv tv cv)

/-- View of `data[outcome_var]` read from the post-assignment frame. -/
def outColPost (df : DataFrame) (ov : String) (iv : List String) (tv : String)
    (cv : List String) : List Cell :=
  (postFrame df iv tv cv).rows.map (cellAt (postFrame df iv tv cv).cols ov)

/-- View of `second_stage_model = sm.OLS(data[outcome_var], X2).fit()`. -/
def secondFit (df : DataFrame) (ov : String) (iv : List String) (tv : String)
    (cv : List String) : OLSFit :=
  olsStats (x2Design df iv tv cv).1 (mkObs (x2Design df iv tv cv).2 (outColPost df ov iv tv cv))

/-- The output printed by `perform_2sls_analysis`. -/
def performLog (display : String) (first second : OLSFit) : List LogLine :=
  (if occursIn "summary" display then
    [LogLine.text "First-stage Regression Summary:", LogLine.modelSummary first]
  else []) ++
  (if occursIn "summary" display then
    [LogLine.text "Second-stage Regression Summary:", LogLine.modelSummary second]
  else [])

/-- The dict returned by `perform_2sls_analysis` on the non-exceptional path. -/
def performResult (df : DataFrame) (ov : String) (iv : List String) (tv : String)
    (cv : List String) : TwoSLSResult where
  second_stage_model := secondFit df ov iv tv cv
  first_stage_model := firstFit df iv tv cv
  second_stage_params := (x2Design df iv tv cv).1.zip (secondFit df ov iv tv cv).params
  second_stage_bseSq := (x2Design df iv tv cv).1.zip (secondFit df ov iv tv cv).bseSq
  second_stage_pvalKeys := (x2Design df iv tv cv).1.zip (secondFit df ov iv tv cv).pvalKeys
  second_stage_rsquared := (secondFit df ov iv tv cv).rsquared
  first_stage_fvalue := (firstFit df iv tv cv).fvalue
  first_stage_fpvalKey := (firstFit df iv tv cv).fPValueKey

/-- The record `analyze_2sls_by_stage` appends for stage `s`: the estimator
applied to the filtered copy of that stage's rows, and nothing else. -/
def stageRecordOf (df : DataFrame) (ov : String) (iv : List String) (tv : String)
    (cv : List String) (s : Cell) : StageRecord :=
  mkStageRecord s (performResult (stageFilter df s) ov iv tv cv)

/-- The summaries entry `analyze_2sls_by_stage` stores for stage `s`. -/
def stageSummariesOf (df : DataFrame) (ov : String) (iv : List String) (tv : String)
    (cv : List String) (s : Cell) : StageSummaries :=
  ⟨firstFit (stageFilter df s) iv tv cv, secondFit (stageFilter df s) ov iv tv cv⟩

/-- The output printed while processing stage `s`. -/
def stageLogOf (df : DataFrame) (ov : String) (iv : List String) (tv : String)
    (cv : List String) (display : String) (s : Cell) : List LogLine :=
  (if occursIn "summary" display then [LogLine.text "Running Stage"] else []) ++
  performLog display (firstFit (stageFilter df s) iv tv cv)
    (secondFit (stageFilter df s) ov iv tv cv)

/-- Frame `df` with every row of stage `v` deleted (the stage-isolation experiment
of the specification). -/
def dropStage (df : DataFrame) (v : Cell) : DataFrame :=
  ⟨df.cols, df.rows.filter (fun r => !cellEqNum (cellAt df.cols "stage" r) v)⟩

/-- Whether a `perform_2sls_analysis` call printed any regression summary. -/
def printedSummaries (res : Except PdError (DataFrame × TwoSLSResult × List LogLine)) :
    Bool :=
  match res with
  | .ok t => t.2.2.any (fun l => match l with | .modelSummary _ => true | _ => false)
  | .error _ => false

/-- Whether a computation completed without raising (returned a value). -/
def isOkE {α : Type} (e : Except PdError α) : Bool :=
  match e with
  | .ok _ => true
  | .error _ => false

/-! Concrete frames for witnesses and counterexamples. -/

/-- A clean 2-stage frame: columns `stage, y, z, d, c1`, three rows per
stage, no NaN, no constant column inside a stage slice. -/
def exDf : DataFrame :=
  ⟨["stage", "y", "z", "d", "c1"],
   [[some 1, some 1, some 0, some 0, some 2],
    [some 1, some 3, some 1, some 1, some 1],
    [some 1, some 4, some 2, some 1, some 3],
    [some 2, some 2, some 0, some 1, some 1],
    [some 2, some 5, some 3, some 0, some 2],
    [some 2, some 7, some 5, some 1, some 4]]⟩

/-- The single-stage slice of `exDf` at stage 1. -/
def exSlice : DataFrame :=
  ⟨["stage", "y", "z", "d", "c1"],
   [[some 1, some 1, some 0, some 0, some 2],
    [some 1, some 3, some 1, some 1, some 1],
    [some 1, some 4, some 2, some 1, some 3]]⟩

/-- Rotation of `exSlice`: its rows in a different order (same multiset of rows). -/
def exSlicePerm : DataFrame :=
  ⟨["stage", "y", "z", "d", "c1"],
   [[some 1, some 3, some 1, some 1, some 1],
    [some 1, some 4, some 2, some 1, some 3],
    [some 1, some 1, some 0, some 0, some 2]]⟩

/-- An underdetermined slice: 1 instrument, 0 controls and only 2 complete
rows — fewer than `len(instruments ∪ controls) + 2 = 3` rows. -/
def shortDf : DataFrame :=
  ⟨["y", "z", "d"],
   [[some 1, some 0, some 0],
    [some 2, some 1, some 1]]⟩

/-- A slice whose treatment column `d` has zero variance: the fitted `D_hat`
is constant, so the second-stage design is exactly collinear with the
intercept. -/
def constTreatDf : DataFrame :=
  ⟨["y", "z", "d"],
   [[some 1, some 0, some 1],
    [some 2, some 1, some 1],
    [some 5, some 3, some 1]]⟩

/-- A tiny frame for the imputation claim: one NaN and one finite entry in
`opponent_league_rank_prev`, plus a bystander column. -/
def imputeDf : DataFrame :=
  ⟨["opponent_league_rank_prev", "team_rank_prev"],
   [[none, some 3],
    [some 7, some 4]]⟩

/-- A clean frame lacking an outcome column `y` (for the missing-column
claim). -/
def missDf : DataFrame :=
  ⟨["z", "d"],
   [[some 0, some 0],
    [some 1, some 1]]⟩

/-- The first-stage design row produced from one raw frame row (the two
branches correspond to `add_constant` prepending or skipping). -/
def x1RowCells (df : DataFrame) (iv cv : List String) (r : List Cell) : List Cell :=
  if hasNonzeroConstCol (iv ++ cv).length (x1Sel df iv cv) then
    projRow df.cols (iv ++ cv) r
  else some 1 :: projRow df.cols (iv ++ cv) r

/-- The fitted first-stage prediction for one raw frame row. -/
def dhatRowVal (df : DataFrame) (iv : List String) (tv : String) (cv : List String)
    (r : List Cell) : ℚ :=
  dotQ ((x1RowCells df iv cv r).map (fun c => c.getD 0)) (firstFit df iv tv cv).params

/-- The post-assignment state of one raw frame row: its `D_hat` cell set (or
appended) to the row's fitted first-stage prediction. -/
def postRow (df : DataFrame) (iv : List String) (tv : String) (cv : List String)
    (r : List Cell) : List Cell :=
  if "D_hat" ∈ df.cols then
    r.set (colIdxD df.cols "D_hat") (some (dhatRowVal df iv tv cv r))
  else r ++ [some (dhatRowVal df iv tv cv r)]

/-! Theorems.

First a layer of structural lemmas about the embedding, then one theorem
(plus witness or counterexample) per specification claim. -/

theorem ok_bind {α β : Type} (a : α) (f : α → Except PdError β) :
    (Except.ok a).bind f = f a := rfl

theorem colIdxD_eq_findIdx {cols : List String} {c : String} (h : c ∈ cols) :
    colIdxD cols c = List.findIdx (fun s => s == c) cols := by
  unfold colIdxD
  rw [List.findIdx?_eq_some_of_exists ⟨c, h, by simp⟩]
  rfl

theorem colIdxD_lt {cols : List String} {c : String} (h : c ∈ cols) :
    colIdxD cols c < cols.length := by
  rw [colIdxD_eq_findIdx h]
  exact List.findIdx_lt_length.mpr ⟨c, h, by simp⟩

theorem getD_colIdxD {cols : List String} {c : String} (h : c ∈ cols) :
    cols.getD (colIdxD cols c) "" = c := by
  have hlt := colIdxD_lt h
  rw [List.getD_eq_getElem _ _ hlt]
  have hlt2 : List.findIdx (fun s => s == c) cols < cols.length := by
    rw [← colIdxD_eq_findIdx h]; exact hlt
  have := @List.findIdx_getElem _ (fun s => s == c) cols hlt2
  rw [beq_iff_eq] at this
  simp only [colIdxD_eq_findIdx h]
  exact this

theorem colIdxD_ne {cols : List String} {c t : String} (hc : c ∈ cols) (ht : t ∈ cols)
    (hne : c ≠ t) : colIdxD cols c ≠ colIdxD cols t := by
  intro heq
  apply hne
  have h1 := getD_colIdxD hc
  rw [heq, getD_colIdxD ht] at h1
  exact h1.symm

theorem colIdxD_append {cols l : List String} {c : String} (h : c ∈ cols) :
    colIdxD (cols ++ l) c = colIdxD cols c := by
  unfold colIdxD
  rw [List.findIdx?_append, List.findIdx?_eq_some_of_exists ⟨c, h, by simp⟩]
  rfl

theorem colIdxD_concat_self {cols : List String} {t : String} (h : t ∉ cols) :
    colIdxD (cols ++ [t]) t = cols.length := by
  unfold colIdxD
  have h1 : List.findIdx? (fun s => s == t) cols = none := by
    rw [List.findIdx?_eq_none_iff]
    intro x hx
    simp only [beq_eq_false_iff_ne, ne_eq]
    intro hxt; exact h (hxt ▸ hx)
  rw [List.findIdx?_append, h1]
  simp

theorem cellAt_set_self {cols : List String} {t : String} {r : List Cell} {v : Cell}
    (ht : t ∈ cols) (hr : r.length = cols.length) :
    cellAt cols t (r.set (colIdxD cols t) v) = v := by
  unfold cellAt
  rw [List.getD_eq_getElem?_getD, List.getElem?_set_self (by rw [hr]; exact colIdxD_lt ht)]
  rfl

theorem cellAt_set_ne {cols : List String} {t c : String} {r : List Cell} {v : Cell}
    (ht : t ∈ cols) (hc : c ∈ cols) (hne : c ≠ t) :
    cellAt cols c (r.set (colIdxD cols t) v) = cellAt cols c r := by
  unfold cellAt
  rw [List.getD_eq_getElem?_getD, List.getD_eq_getElem?_getD,
    List.getElem?_set_ne (colIdxD_ne ht hc hne.symm)]

theorem cellAt_concat_self {cols : List String} {t : String} {r : List Cell} {v : Cell}
    (ht : t ∉ cols) (hr : r.length = cols.length) :
    cellAt (cols ++ [t]) t (r ++ [v]) = v := by
  unfold cellAt
  rw [colIdxD_concat_self ht, List.getD_eq_getElem?_getD, ← hr,
    List.getElem?_concat_length]
  rfl

theorem cellAt_concat_ne {cols : List String} {t c : String} {r : List Cell} {v : Cell}
    (hc : c ∈ cols) (hr : r.length = cols.length) :
    cellAt (cols ++ [t]) c (r ++ [v]) = cellAt cols c r := by
  unfold cellAt
  rw [colIdxD_append hc, List.getD_eq_getElem?_getD, List.getD_eq_getElem?_getD,
    List.getElem?_append]
  have hlt : colIdxD cols c < r.length := by rw [hr]; exact colIdxD_lt hc
  simp [hlt]

theorem zipWith_map_right_self {α β δ : Type} (h : α → β → δ) (g : α → β) (l : List α) :
    List.zipWith h l (l.map g) = l.map (fun a => h a (g a)) := by
  induction l with
  | nil => rfl
  | cons a l ih => simp only [List.map_cons, List.zipWith_cons_cons, ih]

theorem setColumn_cols {df : DataFrame} {t : String} {vals : List Cell} :
    (setColumn df t vals).cols = if t ∈ df.cols then df.cols else df.cols ++ [t] := by
  unfold setColumn
  by_cases h : t ∈ df.cols <;> simp [h]

theorem mem_setColumn_cols {df : DataFrame} {t c : String} {vals : List Cell}
    (h : c ∈ df.cols) : c ∈ (setColumn df t vals).cols := by
  rw [setColumn_cols]
  by_cases ht : t ∈ df.cols <;> simp [ht, h]

theorem target_mem_setColumn_cols {df : DataFrame} {t : String} {vals : List Cell} :
    t ∈ (setColumn df t vals).cols := by
  rw [setColumn_cols]
  by_cases ht : t ∈ df.cols <;> simp [ht]

theorem getColumn_eq_ok {df : DataFrame} {c : String} (h : c ∈ df.cols) :
    getColumn df c = .ok (df.rows.map (cellAt df.cols c)) := by
  simp [getColumn, h]

theorem selectCols_eq_ok {df : DataFrame} {names : List String}
    (h : ∀ c ∈ names, c ∈ df.cols) :
    selectCols df names = .ok (df.rows.map (projRow df.cols names)) := by
  have hf : names.filter (fun c => !(df.cols.contains c)) = [] := by
    rw [List.filter_eq_nil_iff]
    intro c hc
    simp [h c hc]
  unfold selectCols
  rw [hf]

theorem olsRun_eq_ok {names : List String} {exog : List (List Cell)} {endog : List Cell}
    (hx : ∀ r ∈ exog, ∀ c ∈ r, c.isSome = true) (hy : ∀ c ∈ endog, c.isSome = true) :
    olsRun names exog endog = .ok (olsStats names (mkObs exog endog)) := by
  have h1 : exog.any (fun r => r.any (fun c => c.isNone)) = false := by
    rw [List.any_eq_false]
    intro r hr
    rw [Bool.not_eq_true, List.any_eq_false]
    intro c hc
    have hcs := hx r hr c hc
    cases c with
    | none => simp at hcs
    | some q => simp
  have h2 : endog.any (fun c => c.isNone) = false := by
    rw [List.any_eq_false]
    intro c hc
    have hcs := hy c hc
    cases c with
    | none => simp at hcs
    | some q => simp
  simp [olsRun, h1, h2]

theorem refCols_ov {ov tv : String} {iv cv : List String} : ov ∈ refCols ov tv iv cv :=
  List.mem_cons_self _ _

theorem refCols_tv {ov tv : String} {iv cv : List String} : tv ∈ refCols ov tv iv cv :=
  List.mem_cons_of_mem _ (List.mem_cons_self _ _)

theorem refCols_ivcv {ov tv c : String} {iv cv : List String} (h : c ∈ iv ++ cv) :
    c ∈ refCols ov tv iv cv :=
  List.mem_cons_of_mem _ (List.mem_cons_of_mem _ h)

theorem refCols_cv {ov tv c : String} {iv cv : List String} (h : c ∈ cv) :
    c ∈ refCols ov tv iv cv :=
  refCols_ivcv (List.mem_append_right _ h)

theorem x1Sel_clean {df : DataFrame} {iv cv : List String}
    (hc : ∀ c ∈ iv ++ cv, ∀ r ∈ df.rows, (cellAt df.cols c r).isSome = true) :
    ∀ r ∈ x1Sel df iv cv, ∀ c ∈ r, c.isSome = true := by
  intro r hr c hcm
  unfold x1Sel at hr
  obtain ⟨r0, hr0, rfl⟩ := List.mem_map.mp hr
  unfold projRow at hcm
  obtain ⟨name, hname, rfl⟩ := List.mem_map.mp hcm
  exact hc name hname r0 hr0

theorem addConstant_rows_clean {names : List String} {rows : List (List Cell)}
    (h : ∀ r ∈ rows, ∀ c ∈ r, c.isSome = true) :
    ∀ r ∈ (addConstant names rows).2, ∀ c ∈ r, c.isSome = true := by
  unfold addConstant
  by_cases hb : hasNonzeroConstCol names.length rows = true
  · simpa [hb] using h
  · simp only [Bool.not_eq_true] at hb
    simp only [hb, Bool.false_eq_true, if_false]
    intro r hr c hcm
    obtain ⟨r0, hr0, rfl⟩ := List.mem_map.mp hr
    rcases List.mem_cons.mp hcm with h1 | h1
    · subst h1; rfl
    · exact h r0 hr0 c h1

theorem x1Design_snd {df : DataFrame} {iv cv : List String} :
    (x1Design df iv cv).2 = df.rows.map (x1RowCells df iv cv) := by
  unfold x1Design addConstant x1RowCells
  by_cases hb : hasNonzeroConstCol (iv ++ cv).length (x1Sel df iv cv) = true
  · simp only [hb, if_true]
    rfl
  · simp only [Bool.not_eq_true] at hb
    simp only [hb, Bool.false_eq_true, if_false]
    unfold x1Sel
    rw [List.map_map]
    rfl

theorem dhatVals_eq_map {df : DataFrame} {iv cv : List String} {tv : String} :
    dhatVals df iv tv cv = df.rows.map (dhatRowVal df iv tv cv) := by
  unfold dhatVals OLSFit.predictRows dhatRowVal
  rw [x1Design_snd, List.map_map]
  rfl

theorem postFrame_rows {df : DataFrame} {iv cv : List String} {tv : String} :
    (postFrame df iv tv cv).rows = df.rows.map (postRow df iv tv cv) := by
  unfold postFrame setColumn postRow
  by_cases hd : "D_hat" ∈ df.cols
  · simp only [hd, if_true]
    rw [dhatVals_eq_map, List.map_map]
    exact zipWith_map_right_self _ _ _
  · simp only [hd, if_false]
    rw [dhatVals_eq_map, List.map_map]
    exact zipWith_map_right_self _ _ _

theorem postFrame_cols {df : DataFrame} {iv cv : List String} {tv : String} :
    (postFrame df iv tv cv).cols =
      if "D_hat" ∈ df.cols then df.cols else df.cols ++ ["D_hat"] :=
  setColumn_cols

theorem mem_postFrame_cols {df : DataFrame} {iv cv : List String} {tv c : String}
    (h : c ∈ df.cols) : c ∈ (postFrame df iv tv cv).cols :=
  mem_setColumn_cols h

theorem dhat_mem_postFrame_cols {df : DataFrame} {iv cv : List String} {tv : String} :
    "D_hat" ∈ (postFrame df iv tv cv).cols :=
  target_mem_setColumn_cols

theorem postRow_length {df : DataFrame} {iv cv : List String} {tv : String}
    {r : List Cell} (hr : r.length = df.cols.length) :
    (postRow df iv tv cv r).length = (postFrame df iv tv cv).cols.length := by
  unfold postRow
  rw [postFrame_cols]
  by_cases hd : "D_hat" ∈ df.cols <;> simp [hd, hr]

theorem postFrame_wf {df : DataFrame} {iv cv : List String} {tv : String}
    (hwf : Wf df) : Wf (postFrame df iv tv cv) := by
  intro r hr
  rw [postFrame_rows] at hr
  obtain ⟨r0, hr0, rfl⟩ := List.mem_map.mp hr
  exact postRow_length (hwf r0 hr0)

theorem cellAt_postRow_dhat {df : DataFrame} {iv cv : List String} {tv : String}
    {r : List Cell} (hr : r.length = df.cols.length) :
    cellAt (postFrame df iv tv cv).cols "D_hat" (postRow df iv tv cv r) =
      some (dhatRowVal df iv tv cv r) := by
  unfold postRow
  rw [postFrame_cols]
  by_cases hd : "D_hat" ∈ df.cols
  · simp only [hd, if_true]
    exact cellAt_set_self hd hr
  · simp only [hd, if_false]
    exact cellAt_concat_self hd hr

theorem cellAt_postRow_ne {df : DataFrame} {iv cv : List String} {tv c : String}
    {r : List Cell} (hr : r.length = df.cols.length) (hc : c ∈ df.cols)
    (hne : c ≠ "D_hat") :
    cellAt (postFrame df iv tv cv).cols c (postRow df iv tv cv r) =
      cellAt df.cols c r := by
  unfold postRow
  rw [postFrame_cols]
  by_cases hd : "D_hat" ∈ df.cols
  · simp only [hd, if_true]
    exact cellAt_set_ne hd hc hne
  · simp only [hd, if_false]
    exact cellAt_concat_ne hc hr

theorem x2Sel_clean {df : DataFrame} {tv : String} {iv cv : List String}
    (hwf : Wf df) (hpcv : ∀ c ∈ cv, c ∈ df.cols)
    (hccv : ∀ c ∈ cv, ∀ r ∈ df.rows, (cellAt df.cols c r).isSome = true) :
    ∀ r ∈ x2Sel df iv tv cv, ∀ c ∈ r, c.isSome = true := by
  intro r hr c hcm
  unfold x2Sel at hr
  obtain ⟨r1, hr1, rfl⟩ := List.mem_map.mp hr
  rw [postFrame_rows] at hr1
  obtain ⟨r0, hr0, rfl⟩ := List.mem_map.mp hr1
  unfold projRow at hcm
  obtain ⟨name, hname, rfl⟩ := List.mem_map.mp hcm
  by_cases hne : name = "D_hat"
  · subst hne
    rw [cellAt_postRow_dhat (hwf r0 hr0)]
    rfl
  · have hnamecv : name ∈ cv := by
      rcases List.mem_cons.mp hname with h1 | h1
      · exact absurd h1 hne
      · exact h1
    rw [cellAt_postRow_ne (hwf r0 hr0) (hpcv name hnamecv) hne]
    exact hccv name hnamecv r0 hr0

theorem outColPost_clean {df : DataFrame} {ov tv : String} {iv cv : List String}
    (hwf : Wf df) (hpov : ov ∈ df.cols)
    (hcov : ∀ r ∈ df.rows, (cellAt df.cols ov r).isSome = true) :
    ∀ c ∈ outColPost df ov iv tv cv, c.isSome = true := by
  intro c hcm
  unfold outColPost at hcm
  rw [postFrame_rows] at hcm
  rw [List.map_map] at hcm
  obtain ⟨r0, hr0, rfl⟩ := List.mem_map.mp hcm
  by_cases hne : ov = "D_hat"
  · subst hne
    show (cellAt (postFrame df iv tv cv).cols "D_hat" (postRow df iv tv cv r0)).isSome = true
    rw [cellAt_postRow_dhat (hwf r0 hr0)]
    rfl
  · show (cellAt (postFrame df iv tv cv).cols ov (postRow df iv tv cv r0)).isSome = true
    rw [cellAt_postRow_ne (hwf r0 hr0) hpov hne]
    exact hcov r0 hr0

theorem err_bind {α β : Type} (e : PdError) (f : α → Except PdError β) :
    (Except.error e).bind f = .error e := rfl

theorem getColumn_eq_error {df : DataFrame} {c : String} (h : c ∉ df.cols) :
    getColumn df c = .error (.missingColumns [c]) := by
  simp [getColumn, h]

theorem selectCols_eq_error {df : DataFrame} {names : List String}
    (h : names.filter (fun c => !(df.cols.contains c)) ≠ []) :
    selectCols df names =
      .error (.missingColumns (names.filter (fun c => !(df.cols.contains c)))) := by
  unfold selectCols
  cases hh : names.filter (fun c => !(df.cols.contains c)) with
  | nil => exact absurd hh h
  | cons a l => rfl

/-- Partial-evaluation lemma: with the first-stage columns present and
NaN-free, `perform_2sls_analysis` reduces to its tail — reading the outcome
column of the post-assignment frame and fitting the second stage. -/
theorem perform_eq_step {df : DataFrame} {ov tv disp : String} {iv cv : List String}
    (hptv : tv ∈ df.cols) (hpivcv : ∀ c ∈ iv ++ cv, c ∈ df.cols)
    (hctv : ∀ r ∈ df.rows, (cellAt df.cols tv r).isSome = true)
    (hcivcv : ∀ c ∈ iv ++ cv, ∀ r ∈ df.rows, (cellAt df.cols c r).isSome = true) :
    perform_2sls_analysis df ov iv tv cv disp =
      (getColumn (postFrame df iv tv cv) ov).bind (fun ycol =>
      (olsRun (x2Design df iv tv cv).1 (x2Design df iv tv cv).2 ycol).bind (fun second =>
      .ok (postFrame df iv tv cv,
        { second_stage_model := second
          first_stage_model := firstFit df iv tv cv
          second_stage_params := (x2Design df iv tv cv).1.zip second.params
          second_stage_bseSq := (x2Design df iv tv cv).1.zip second.bseSq
          second_stage_pvalKeys := (x2Design df iv tv cv).1.zip second.pvalKeys
          second_stage_rsquared := second.rsquared
          first_stage_fvalue := (firstFit df iv tv cv).fvalue
          first_stage_fpvalKey := (firstFit df iv tv cv).fPValueKey },
        performLog disp (firstFit df iv tv cv) second))) := by
  have h1 : selectCols df (iv ++ cv) = .ok (x1Sel df iv cv) :=
    selectCols_eq_ok hpivcv
  have h2 : getColumn df tv = .ok (treatCol df tv) :=
    getColumn_eq_ok hptv
  have hty : ∀ c ∈ treatCol df tv, c.isSome = true := by
    intro c hcm
    unfold treatCol at hcm
    obtain ⟨r0, hr0, rfl⟩ := List.mem_map.mp hcm
    exact hctv r0 hr0
  have h3 : olsRun (x1Design df iv cv).1 (x1Design df iv cv).2 (treatCol df tv) =
      .ok (firstFit df iv tv cv) :=
    olsRun_eq_ok (addConstant_rows_clean (x1Sel_clean hcivcv)) hty
  have h4 : selectCols (postFrame df iv tv cv) ("D_hat" :: cv) =
      .ok (x2Sel df iv tv cv) := by
    refine selectCols_eq_ok ?_
    intro c hcm
    rcases List.mem_cons.mp hcm with h1' | h1'
    · subst h1'; exact dhat_mem_postFrame_cols
    · exact mem_postFrame_cols (hpivcv c (List.mem_append_right _ h1'))
  have hb1 : addConstant (iv ++ cv) (x1Sel df iv cv) = x1Design df iv cv := rfl
  have hb2 : (firstFit df iv tv cv).predictRows (x1Design df iv cv).2 =
      dhatVals df iv tv cv := rfl
  have hb3 : setColumn df "D_hat" ((dhatVals df iv tv cv).map some) =
      postFrame df iv tv cv := rfl
  have hb4 : addConstant ("D_hat" :: cv) (x2Sel df iv tv cv) =
      x2Design df iv tv cv := rfl
  unfold perform_2sls_analysis
  rw [h1, ok_bind]
  simp only [hb1]
  rw [h2, ok_bind]
  simp only [h3, ok_bind, hb2, hb3, h4, ok_bind, hb4]
  simp only [performLog]

/-- Master lemma: on a well-formed frame with every referenced column present
and NaN-free, `perform_2sls_analysis` takes its non-exceptional path and
returns exactly the pipeline views. -/
theorem perform_eq_clean {df : DataFrame} {ov tv disp : String} {iv cv : List String}
    (hwf : Wf df) (hp : ColsPresent df (refCols ov tv iv cv))
    (hc : CleanCols df (refCols ov tv iv cv)) :
    perform_2sls_analysis df ov iv tv cv disp =
      .ok (postFrame df iv tv cv, performResult df ov iv tv cv,
        performLog disp (firstFit df iv tv cv) (secondFit df ov iv tv cv)) := by
  rw [perform_eq_step (hp tv refCols_tv) (fun c hcm => hp c (refCols_ivcv hcm))
    (hc tv refCols_tv) (fun c hcm => hc c (refCols_ivcv hcm))]
  have h5 : getColumn (postFrame df iv tv cv) ov = .ok (outColPost df ov iv tv cv) :=
    getColumn_eq_ok (mem_postFrame_cols (hp ov refCols_ov))
  have h6 : olsRun (x2Design df iv tv cv).1 (x2Design df iv tv cv).2
      (outColPost df ov iv tv cv) = .ok (secondFit df ov iv tv cv) :=
    olsRun_eq_ok
      (addConstant_rows_clean (x2Sel_clean hwf (fun c hcm => hp c (refCols_cv hcm))
        (fun c hcm => hc c (refCols_cv hcm))))
      (outColPost_clean hwf (hp ov refCols_ov) (hc ov refCols_ov))
  rw [h5, ok_bind, h6, ok_bind]
  rfl

theorem getColumn_postFrame_ne {df : DataFrame} {iv cv : List String} {tv c : String}
    (hwf : Wf df) (hc : c ∈ df.cols) (hne : c ≠ "D_hat") :
    getColumn (postFrame df iv tv cv) c = getColumn df c := by
  rw [getColumn_eq_ok (mem_postFrame_cols hc), getColumn_eq_ok hc]
  rw [postFrame_rows, List.map_map]
  congr 1
  refine List.map_congr_left ?_
  intro r hr
  exact cellAt_postRow_ne (hwf r hr) hc hne

theorem getColumn_postFrame_dhat {df : DataFrame} {iv cv : List String} {tv : String}
    (hwf : Wf df) :
    getColumn (postFrame df iv tv cv) "D_hat" = .ok ((dhatVals df iv tv cv).map some) := by
  rw [getColumn_eq_ok dhat_mem_postFrame_cols]
  rw [postFrame_rows, List.map_map, dhatVals_eq_map, List.map_map]
  congr 1
  refine List.map_congr_left ?_
  intro r hr
  exact cellAt_postRow_dhat (hwf r hr)

/-- C3 (counterexample to the claim as stated): estimation does not fail on a
degenerate design.  `shortDf` has only 2 complete rows — fewer than
`len(instruments ∪ controls) + 2 = 3`; `constTreatDf` has a zero-variance
treatment column (so the fitted `D_hat` is constant); the third call passes
the same instrument twice, making the first-stage design exactly singular.
In all three cases `perform_2sls_analysis` returns a result record instead of
raising anything — the code has no `DegenerateDesignError`, and statsmodels'
pseudoinverse-based OLS never raises on a finite rank-deficient design. -/
theorem C3_counterexample :
    shortDf.rows.length < ((["z"] ++ ([] : List String)).dedup.length + 2) ∧
    isOkE (perform_2sls_analysis shortDf "y" ["z"] "d" [] "none") = true ∧
    treatCol constTreatDf "d" = [some 1, some 1, some 1] ∧
    isOkE (perform_2sls_analysis constTreatDf "y" ["z"] "d" [] "none") = true ∧
    isOkE (perform_2sls_analysis exSlice "y" ["z", "z"] "d" [] "none") = true := by
  refine ⟨by decide, by with_unfolding_all decide, by with_unfolding_all decide,
    by with_unfolding_all decide, by with_unfolding_all decide⟩

/-- C3 (amended): on a slice whose referenced columns are present and free of
NaN, `perform_2sls_analysis` always returns a result record — also when the
slice has fewer than `len(instruments ∪ controls) + 2` rows or a singular
design matrix, because the OLS fit is computed through the Moore-Penrose
pseudoinverse; no `DegenerateDesignError` exists in the code and nothing is
raised for rank deficiency.  (With NaN in a referenced column the fit raises
numpy's `LinAlgError` instead, also not a `DegenerateDesignError`.) -/
theorem C3_pinv_no_error {df : DataFrame} {ov tv disp : String} {iv cv : List String}
    (hwf : Wf df) (hp : ColsPresent df (refCols ov tv iv cv))
    (hc : CleanCols df (refCols ov tv iv cv)) :
    isOkE (perform_2sls_analysis df ov iv tv cv disp) = true := by
  rw [perform_eq_clean hwf hp hc]
  rfl

/-- Witness for C3: the amended statement instantiated at the underdetermined
2-row slice. -/
theorem C3_pinv_no_error_witness :
    shortDf.rows.length < ((["z"] : List String).length + 2) ∧
    isOkE (perform_2sls_analysis shortDf "y" ["z"] "d" [] "none") = true :=
  ⟨by decide, C3_pinv_no_error (by decide) (by decide) (by decide)⟩

/-- C5 (counterexample to the claim as stated): `perform_2sls_analysis` does
mutate the slice passed to it — after the call the frame has gained a
`D_hat` column (source line 34, `data['D_hat'] = ...`). -/
theorem C5_counterexample :
    (perform_2sls_analysis shortDf "y" ["z"] "d" [] "none").toOption.map
      (fun t => t.1.cols) = some (shortDf.cols ++ ["D_hat"]) ∧
    shortDf.cols ≠ shortDf.cols ++ ["D_hat"] :=
  ⟨by with_unfolding_all decide, by decide⟩

/-- C5 (amended): the only side effects of `perform_2sls_analysis` beyond the
optional printing are confined to the `D_hat` column of the passed slice: the
post-call state of the argument is exactly `setColumn data "D_hat"
(fitted first-stage predictions)` — every column other than `D_hat` reads
back unchanged, `D_hat` reads back as the predictions, and the column list
gains at most the new `D_hat` label at the end. -/
theorem C5_dhat_mutation {df : DataFrame} {ov tv disp : String} {iv cv : List String}
    (hwf : Wf df) (hp : ColsPresent df (refCols ov tv iv cv))
    (hc : CleanCols df (refCols ov tv iv cv)) :
    ∃ res log,
      perform_2sls_analysis df ov iv tv cv disp =
        .ok (setColumn df "D_hat" ((dhatVals df iv tv cv).map some), res, log) ∧
      (∀ c ∈ df.cols, c ≠ "D_hat" →
        getColumn (setColumn df "D_hat" ((dhatVals df iv tv cv).map some)) c =
          getColumn df c) ∧
      getColumn (setColumn df "D_hat" ((dhatVals df iv tv cv).map some)) "D_hat" =
        .ok ((dhatVals df iv tv cv).map some) ∧
      (setColumn df "D_hat" ((dhatVals df iv tv cv).map some)).cols =
        (if "D_hat" ∈ df.cols then df.cols else df.cols ++ ["D_hat"]) := by
  refine ⟨performResult df ov iv tv cv,
    performLog disp (firstFit df iv tv cv) (secondFit df ov iv tv cv),
    perform_eq_clean hwf hp hc, ?_, getColumn_postFrame_dhat hwf, setColumn_cols⟩
  intro c hcm hne
  exact getColumn_postFrame_ne hwf hcm hne

/-- Witness for C5: the amended statement instantiated at the stage-1 slice,
with one instrument and one control. -/
theorem C5_dhat_mutation_witness :
    Wf exSlice ∧
    (∃ res log,
      perform_2sls_analysis exSlice "y" ["z"] "d" ["c1"] "none" =
        .ok (setColumn exSlice "D_hat" ((dhatVals exSlice ["z"] "d" ["c1"]).map some),
          res, log) ∧
      (∀ c ∈ exSlice.cols, c ≠ "D_hat" →
        getColumn (setColumn exSlice "D_hat"
          ((dhatVals exSlice ["z"] "d" ["c1"]).map some)) c = getColumn exSlice c) ∧
      getColumn (setColumn exSlice "D_hat"
          ((dhatVals exSlice ["z"] "d" ["c1"]).map some)) "D_hat" =
        .ok ((dhatVals exSlice ["z"] "d" ["c1"]).map some) ∧
      (setColumn exSlice "D_hat" ((dhatVals exSlice ["z"] "d" ["c1"]).map some)).cols =
        (if "D_hat" ∈ exSlice.cols then exSlice.cols else exSlice.cols ++ ["D_hat"])) :=
  ⟨by decide, C5_dhat_mutation (by decide) (by decide) (by decide)⟩

/-- C7: `perform_2sls_analysis` is deterministic — two calls with identical
input rows and identical column specifications return identical results
(the embedding is a pure function of the frame and the specification; the
computation involves no randomness). -/
theorem C7_deterministic (d1 d2 : DataFrame) (ov : String) (iv : List String)
    (tv : String) (cv : List String) (disp : String)
    (hcols : d1.cols = d2.cols) (hrows : d1.rows = d2.rows) :
    perform_2sls_analysis d1 ov iv tv cv disp =
      perform_2sls_analysis d2 ov iv tv cv disp := by
  cases d1
  cases d2
  cases hcols
  cases hrows
  rfl

/-- Witness for C7 at a concrete slice and specification. -/
theorem C7_deterministic_witness :
    perform_2sls_analysis exSlice "y" ["z"] "d" ["c1"] "none" =
      perform_2sls_analysis exSlice "y" ["z"] "d" ["c1"] "none" :=
  C7_deterministic exSlice exSlice "y" ["z"] "d" ["c1"] "none" rfl rfl

/-- C4: when a requested outcome, treatment, instrument or control column is
absent from the (NaN-free) dataset slice, `perform_2sls_analysis` raises the
missing-column error (pandas `KeyError`; the spec's `MissingColumnError`) and
returns no result record for that stage; every column name carried by the
error is a requested column that is really absent.  Precondition: the outcome
is not literally named `D_hat` — the in-place assignment at source line 34
creates a `D_hat` column before the outcome is read, so an absent outcome
called `D_hat` would be silently masked. -/
theorem C4_missing_column {df : DataFrame} {ov tv disp : String} {iv cv : List String}
    (hclean : ∀ c ∈ df.cols, ∀ r ∈ df.rows, (cellAt df.cols c r).isSome = true)
    (hov : ov ≠ "D_hat")
    (hmiss : ∃ c ∈ refCols ov tv iv cv, c ∉ df.cols) :
    ∃ ns, perform_2sls_analysis df ov iv tv cv disp = .error (.missingColumns ns) ∧
      ns ≠ [] ∧ ∀ n ∈ ns, n ∈ refCols ov tv iv cv ∧ n ∉ df.cols := by
  by_cases hA : (iv ++ cv).filter (fun c => !(df.cols.contains c)) = []
  case neg =>
    refine ⟨(iv ++ cv).filter (fun c => !(df.cols.contains c)), ?_, hA, ?_⟩
    · unfold perform_2sls_analysis
      rw [selectCols_eq_error hA, err_bind]
    · intro n hn
      rw [List.mem_filter] at hn
      exact ⟨refCols_ivcv hn.1, by simpa using hn.2⟩
  case pos =>
    have hpivcv : ∀ c ∈ iv ++ cv, c ∈ df.cols := by
      intro c hcm
      by_contra hnot
      have hcmem : c ∈ (iv ++ cv).filter (fun c => !(df.cols.contains c)) := by
        rw [List.mem_filter]
        exact ⟨hcm, by simpa using hnot⟩
      rw [hA] at hcmem
      exact absurd hcmem (List.not_mem_nil c)
    by_cases hB : tv ∈ df.cols
    case neg =>
      refine ⟨[tv], ?_, by simp, ?_⟩
      · unfold perform_2sls_analysis
        rw [selectCols_eq_ok hpivcv, ok_bind, getColumn_eq_error hB, err_bind]
      · intro n hn
        rw [List.mem_singleton] at hn
        subst hn
        exact ⟨refCols_tv, hB⟩
    case pos =>
      have hovmiss : ov ∉ df.cols := by
        obtain ⟨c, hcm, hcnot⟩ := hmiss
        rcases List.mem_cons.mp hcm with rfl | hcm2
        · exact hcnot
        · rcases List.mem_cons.mp hcm2 with rfl | hcm3
          · exact absurd hB hcnot
          · exact absurd (hpivcv c hcm3) hcnot
      have hnotpost : ov ∉ (postFrame df iv tv cv).cols := by
        rw [postFrame_cols]
        by_cases hd : "D_hat" ∈ df.cols
        · simpa [hd] using hovmiss
        · simp only [hd, if_false]
          rw [List.mem_append]
          rintro (h1 | h1)
          · exact hovmiss h1
          · rw [List.mem_singleton] at h1
            exact hov h1
      refine ⟨[ov], ?_, by simp, ?_⟩
      · rw [perform_eq_step hB hpivcv (hclean tv hB)
          (fun c hcm => hclean c (hpivcv c hcm))]
        rw [getColumn_eq_error hnotpost, err_bind]
      · intro n hn
        rw [List.mem_singleton] at hn
        subst hn
        exact ⟨refCols_ov, hovmiss⟩

/-- Witness for C4: the outcome column `y` is absent from `missDf`; the call
raises the missing-column error naming exactly `y`. -/
theorem C4_missing_column_witness :
    ∃ ns, perform_2sls_analysis missDf "y" ["z"] "d" [] "none" =
        .error (.missingColumns ns) ∧
      ns ≠ [] ∧ ∀ n ∈ ns, n ∈ refCols "y" "d" ["z"] [] ∧ n ∉ missDf.cols :=
  C4_missing_column (by decide) (by decide) ⟨"y", by decide, by decide⟩

theorem matMul_length {a b : List (List ℚ)} {k : ℕ} : (matMul a b k).length = a.length := by
  simp [matMul]

theorem transposeQ_length {m : List (List ℚ)} {k : ℕ} : (transposeQ m k).length = k := by
  simp [transposeQ]

theorem pinvSym_length {k : ℕ} {a : List (List ℚ)} : (pinvSym k a).length = k := by
  unfold pinvSym
  rw [matMul_length, matMul_length, matMul_length, transposeQ_length]

theorem matVec_length {m : List (List ℚ)} {v : List ℚ} : (matVec m v).length = m.length := by
  simp [matVec]

theorem olsStats_params_length {names : List String} {obs : List (List ℚ × ℚ)} :
    (olsStats names obs).params.length = names.length := by
  simp only [olsStats]
  rw [matVec_length, pinvSym_length]

theorem olsStats_bseSq_length {names : List String} {obs : List (List ℚ × ℚ)} :
    (olsStats names obs).bseSq.length = names.length := by
  simp only [olsStats]
  simp

theorem olsStats_tSq_length {names : List String} {obs : List (List ℚ × ℚ)} :
    (olsStats names obs).tSq.length = names.length := by
  simp only [olsStats]
  rw [List.length_zipWith, matVec_length, pinvSym_length]
  simp

theorem pvalKeys_length {m : OLSFit} : m.pvalKeys.length = m.tSq.length := by
  simp [OLSFit.pvalKeys]

/-- The label `D_hat` looks up the second entry of a Series zipped over the
design names `const :: D_hat :: controls`. -/
theorem find_zip_const_dhat {α : Type} {cv : List String} {vs : List α} {d : α}
    (h : vs.length = cv.length + 2) :
    (((("const" :: "D_hat" :: cv).zip vs).find? (fun p => p.1 == "D_hat")).map
      (fun p => p.2)).getD d = vs.getD 1 d := by
  cases vs with
  | nil => simp at h
  | cons v0 tl =>
    cases tl with
    | nil => simp at h
    | cons v1 rest =>
      have hne : (("const" : String) == "D_hat") = false := by decide
      simp [List.find?, hne]

theorem x1Design_no_const {df : DataFrame} {iv cv : List String}
    (h : hasNonzeroConstCol (iv ++ cv).length (x1Sel df iv cv) = false) :
    x1Design df iv cv =
      ("const" :: (iv ++ cv), (x1Sel df iv cv).map (fun r => some 1 :: r)) := by
  unfold x1Design addConstant
  rw [h]
  simp

theorem x2Design_no_const {df : DataFrame} {tv : String} {iv cv : List String}
    (h : hasNonzeroConstCol ("D_hat" :: cv).length (x2Sel df iv tv cv) = false) :
    x2Design df iv tv cv =
      ("const" :: "D_hat" :: cv, (x2Sel df iv tv cv).map (fun r => some 1 :: r)) := by
  unfold x2Design addConstant
  rw [h]
  simp

theorem outColPost_eq_orig {df : DataFrame} {ov tv : String} {iv cv : List String}
    (hwf : Wf df) (hov : ov ∈ df.cols) (hne : ov ≠ "D_hat") :
    outColPost df ov iv tv cv = df.rows.map (cellAt df.cols ov) := by
  unfold outColPost
  rw [postFrame_rows, List.map_map]
  refine List.map_congr_left ?_
  intro r hr
  exact cellAt_postRow_ne (hwf r hr) hov hne

theorem dhatVals_length {df : DataFrame} {tv : String} {iv cv : List String} :
    (dhatVals df iv tv cv).length = df.rows.length := by
  rw [dhatVals_eq_map]
  simp

/-- C1: `perform_2sls_analysis` (and the per-stage record assembly of
`analyze_2sls_by_stage`) implements exactly the specified 2SLS pipeline:
the first-stage fit is an OLS of the treatment column on an intercept plus
the instrument columns plus the control columns; the `D_hat` column of the
returned frame holds the predicted treatment for every row of the slice;
the second-stage fit is an OLS of the outcome column on an intercept plus
`D_hat` plus the control columns; and the stage record's causal estimate,
(squared) standard error, and p-value determinant are exactly the
second-stage entries at the position of `D_hat` (index 1 of
`const :: D_hat :: controls`), its R² the second-stage R², and its
F statistic and F p-value determinant the first-stage model's.
Preconditions: referenced columns present and NaN-free on a rectangular
slice; no selected data column is a nonzero constant (else statsmodels'
`add_constant` would skip the intercept); and the outcome is not literally
named `D_hat`. -/
theorem C1_2sls_pipeline {df : DataFrame} {ov tv disp : String} {iv cv : List String}
    (hwf : Wf df) (hp : ColsPresent df (refCols ov tv iv cv))
    (hc : CleanCols df (refCols ov tv iv cv))
    (hnc1 : hasNonzeroConstCol (iv ++ cv).length (x1Sel df iv cv) = false)
    (hnc2 : hasNonzeroConstCol ("D_hat" :: cv).length (x2Sel df iv tv cv) = false)
    (hov : ov ≠ "D_hat") :
    ∃ res log,
      perform_2sls_analysis df ov iv tv cv disp = .ok (postFrame df iv tv cv, res, log) ∧
      res.first_stage_model =
        olsStats ("const" :: (iv ++ cv))
          (mkObs ((x1Sel df iv cv).map (fun r => some 1 :: r)) (treatCol df tv)) ∧
      getColumn (postFrame df iv tv cv) "D_hat" =
        .ok ((dhatVals df iv tv cv).map some) ∧
      (dhatVals df iv tv cv).length = df.rows.length ∧
      res.second_stage_model =
        olsStats ("const" :: "D_hat" :: cv)
          (mkObs ((x2Sel df iv tv cv).map (fun r => some 1 :: r))
            (df.rows.map (cellAt df.cols ov))) ∧
      (∀ s : Cell,
        (mkStageRecord s res).iv_2sls = res.second_stage_model.params.getD 1 0 ∧
        (mkStageRecord s res).std_errorSq = res.second_stage_model.bseSq.getD 1 0 ∧
        (mkStageRecord s res).p_valueKey =
          (res.second_stage_model.tSq.getD 1 0, res.second_stage_model.dfResid) ∧
        (mkStageRecord s res).r_squared = res.second_stage_model.rsquared ∧
        (mkStageRecord s res).f_stat = res.first_stage_model.fvalue ∧
        (mkStageRecord s res).f_p_valueKey = res.first_stage_model.fPValueKey) := by
  have hx2n : (x2Design df iv tv cv).1 = "const" :: "D_hat" :: cv := by
    rw [x2Design_no_const hnc2]
  have hlen2 : ("const" :: "D_hat" :: cv).length = cv.length + 2 := by
    simp
  have hplen : (secondFit df ov iv tv cv).params.length = cv.length + 2 := by
    unfold secondFit
    rw [olsStats_params_length, hx2n, hlen2]
  have hblen : (secondFit df ov iv tv cv).bseSq.length = cv.length + 2 := by
    unfold secondFit
    rw [olsStats_bseSq_length, hx2n, hlen2]
  have htlen : (secondFit df ov iv tv cv).tSq.length = cv.length + 2 := by
    unfold secondFit
    rw [olsStats_tSq_length, hx2n, hlen2]
  have hklen : (secondFit df ov iv tv cv).pvalKeys.length = cv.length + 2 := by
    rw [pvalKeys_length, htlen]
  refine ⟨performResult df ov iv tv cv,
    performLog disp (firstFit df iv tv cv) (secondFit df ov iv tv cv),
    perform_eq_clean hwf hp hc, ?_, getColumn_postFrame_dhat hwf, dhatVals_length,
    ?_, ?_⟩
  · show firstFit df iv tv cv = _
    unfold firstFit
    rw [x1Design_no_const hnc1]
  · show secondFit df ov iv tv cv = _
    unfold secondFit
    rw [x2Design_no_const hnc2, outColPost_eq_orig hwf (hp ov refCols_ov) hov]
  · intro s
    refine ⟨?_, ?_, ?_, rfl, rfl, rfl⟩
    · show seriesGet ((x2Design df iv tv cv).1.zip (secondFit df ov iv tv cv).params)
        "D_hat" = (secondFit df ov iv tv cv).params.getD 1 0
      rw [hx2n]
      exact find_zip_const_dhat hplen
    · show seriesGet ((x2Design df iv tv cv).1.zip (secondFit df ov iv tv cv).bseSq)
        "D_hat" = (secondFit df ov iv tv cv).bseSq.getD 1 0
      rw [hx2n]
      exact find_zip_const_dhat hblen
    · show ((((x2Design df iv tv cv).1.zip
          (secondFit df ov iv tv cv).pvalKeys).find? (fun p => p.1 == "D_hat")).map
          (fun p => p.2)).getD (0, 0) =
        ((secondFit df ov iv tv cv).tSq.getD 1 0, (secondFit df ov iv tv cv).dfResid)
      rw [hx2n, find_zip_const_dhat hklen]
      have h1lt : 1 < (secondFit df ov iv tv cv).tSq.length := by
        rw [htlen]
        omega
      have h1lt2 : 1 < (secondFit df ov iv tv cv).pvalKeys.length := by
        rw [hklen]
        omega
      unfold OLSFit.pvalKeys
      rw [List.getD_eq_getElem _ _ (by simpa using h1lt), List.getElem_map,
        List.getD_eq_getElem _ _ h1lt]

/-- Witness for C1 at the stage-1 slice with one instrument and one
control. -/
theorem C1_2sls_pipeline_witness :
    ∃ res log,
      perform_2sls_analysis exSlice "y" ["z"] "d" ["c1"] "none" =
        .ok (postFrame exSlice ["z"] "d" ["c1"], res, log) ∧
      res.first_stage_model =
        olsStats ("const" :: (["z"] ++ ["c1"]))
          (mkObs ((x1Sel exSlice ["z"] ["c1"]).map (fun r => some 1 :: r))
            (treatCol exSlice "d")) ∧
      getColumn (postFrame exSlice ["z"] "d" ["c1"]) "D_hat" =
        .ok ((dhatVals exSlice ["z"] "d" ["c1"]).map some) ∧
      (dhatVals exSlice ["z"] "d" ["c1"]).length = exSlice.rows.length ∧
      res.second_stage_model =
        olsStats ("const" :: "D_hat" :: ["c1"])
          (mkObs ((x2Sel exSlice ["z"] "d" ["c1"]).map (fun r => some 1 :: r))
            (exSlice.rows.map (cellAt exSlice.cols "y"))) ∧
      (∀ s : Cell,
        (mkStageRecord s res).iv_2sls = res.second_stage_model.params.getD 1 0 ∧
        (mkStageRecord s res).std_errorSq = res.second_stage_model.bseSq.getD 1 0 ∧
        (mkStageRecord s res).p_valueKey =
          (res.second_stage_model.tSq.getD 1 0, res.second_stage_model.dfResid) ∧
        (mkStageRecord s res).r_squared = res.second_stage_model.rsquared ∧
        (mkStageRecord s res).f_stat = res.first_stage_model.fvalue ∧
        (mkStageRecord s res).f_p_valueKey = res.first_stage_model.fPValueKey) :=
  C1_2sls_pipeline (by decide) (by decide) (by decide)
    (by with_unfolding_all decide) (by with_unfolding_all decide) (by decide)

theorem any_congr_mem {α : Type} {l : List α} {f g : α → Bool}
    (h : ∀ a ∈ l, f a = g a) : l.any f = l.any g := by
  induction l with
  | nil => rfl
  | cons a t ih =>
    simp only [List.any_cons]
    rw [h a (List.mem_cons_self a t), ih (fun b hb => h b (List.mem_cons_of_mem a hb))]

theorem isNonzeroConst_iff {col : List Cell} :
    isNonzeroConst col = true ↔
      ∃ q : ℚ, q ≠ 0 ∧ col ≠ [] ∧ ∀ c ∈ col, c = some q := by
  cases col with
  | nil => simp [isNonzeroConst]
  | cons c rest =>
    cases c with
    | none =>
      simp only [isNonzeroConst]
      constructor
      · intro h
        exact absurd h (by simp)
      · rintro ⟨q, _, _, hall⟩
        exact absurd (hall none (List.mem_cons_self _ _)) (by simp)
    | some q0 =>
      simp only [isNonzeroConst, Bool.and_eq_true, bne_iff_ne, ne_eq, List.all_eq_true]
      constructor
      · rintro ⟨hq0, hall⟩
        refine ⟨q0, hq0, by simp, ?_⟩
        intro c hcm
        rcases List.mem_cons.mp hcm with rfl | hcm2
        · rfl
        · have := hall c hcm2
          rwa [beq_iff_eq] at this
      · rintro ⟨q, hq, _, hall⟩
        have hq0 : (some q0 : Cell) = some q := hall _ (List.mem_cons_self _ _)
        rw [Option.some_inj] at hq0
        subst hq0
        refine ⟨hq, ?_⟩
        intro c hcm
        rw [beq_iff_eq]
        exact hall c (List.mem_cons_of_mem _ hcm)

theorem isNonzeroConst_perm {l1 l2 : List Cell} (h : l1.Perm l2) :
    isNonzeroConst l1 = isNonzeroConst l2 := by
  rw [Bool.eq_iff_iff, isNonzeroConst_iff, isNonzeroConst_iff]
  constructor
  · rintro ⟨q, hq, hne, hall⟩
    refine ⟨q, hq, ?_, fun c hcm => hall c (h.mem_iff.mpr hcm)⟩
    intro hnil
    rw [hnil] at h
    exact hne h.eq_nil
  · rintro ⟨q, hq, hne, hall⟩
    refine ⟨q, hq, ?_, fun c hcm => hall c (h.mem_iff.mp hcm)⟩
    intro hnil
    rw [hnil] at h
    exact hne h.symm.eq_nil

theorem hasNonzeroConstCol_perm {k : ℕ} {rows1 rows2 : List (List Cell)}
    (h : rows1.Perm rows2) :
    hasNonzeroConstCol k rows1 = hasNonzeroConstCol k rows2 := by
  unfold hasNonzeroConstCol
  refine any_congr_mem ?_
  intro j _
  exact isNonzeroConst_perm (h.map _)

/-- The statistics of an OLS fit depend on the observations only through
row-permutation-invariant aggregates (Gram matrix, cross moments, row
count), so a permutation of the observations leaves the whole fit equal. -/
theorem olsStats_perm (names : List String) {o1 o2 : List (List ℚ × ℚ)}
    (h : o1.Perm o2) : olsStats names o1 = olsStats names o2 := by
  have hmap : ∀ f : List ℚ × ℚ → ℚ, (o1.map f).sum = (o2.map f).sum :=
    fun f => (h.map f).sum_eq
  unfold olsStats
  simp only [hmap, h.length_eq]

theorem mkObs_map_map {α : Type} (f : α → List Cell) (g : α → Cell) (l : List α) :
    mkObs (l.map f) (l.map g) =
      l.map (fun r => ((f r).map (fun c => c.getD 0), (g r).getD 0)) := by
  unfold mkObs
  rw [List.zipWith_map, List.zipWith_same]

theorem x1Design_fst {df : DataFrame} {iv cv : List String} :
    (x1Design df iv cv).1 =
      if hasNonzeroConstCol (iv ++ cv).length (x1Sel df iv cv) then iv ++ cv
      else "const" :: (iv ++ cv) := by
  unfold x1Design addConstant
  split <;> simp [*]

theorem x2Design_fst {df : DataFrame} {tv : String} {iv cv : List String} :
    (x2Design df iv tv cv).1 =
      if hasNonzeroConstCol ("D_hat" :: cv).length (x2Sel df iv tv cv) then
        "D_hat" :: cv
      else "const" :: "D_hat" :: cv := by
  unfold x2Design addConstant
  split <;> simp [*]

theorem x2Sel_eq_map {df : DataFrame} {tv : String} {iv cv : List String} :
    x2Sel df iv tv cv =
      df.rows.map (fun r =>
        projRow (postFrame df iv tv cv).cols ("D_hat" :: cv) (postRow df iv tv cv r)) := by
  unfold x2Sel
  rw [postFrame_rows, List.map_map]
  rfl

theorem outColPost_eq_map {df : DataFrame} {ov tv : String} {iv cv : List String} :
    outColPost df ov iv tv cv =
      df.rows.map (fun r =>
        cellAt (postFrame df iv tv cv).cols ov (postRow df iv tv cv r)) := by
  unfold outColPost
  rw [postFrame_rows, List.map_map]
  rfl

theorem x2Design_snd_cases {df : DataFrame} {tv : String} {iv cv : List String} :
    (x2Design df iv tv cv).2 =
      if hasNonzeroConstCol ("D_hat" :: cv).length (x2Sel df iv tv cv) then
        x2Sel df iv tv cv
      else (x2Sel df iv tv cv).map (fun r => some 1 :: r) := by
  unfold x2Design addConstant
  split <;> simp [*]

/-- Under a permutation of the rows (columns unchanged), every fitted model
and the second-stage design names of the pipeline are equal. -/
theorem perform_views_perm {cols : List String} {rows1 rows2 : List (List Cell)}
    (hperm : rows1.Perm rows2) (ov tv : String) (iv cv : List String) :
    performResult ⟨cols, rows1⟩ ov iv tv cv = performResult ⟨cols, rows2⟩ ov iv tv cv ∧
    firstFit ⟨cols, rows1⟩ iv tv cv = firstFit ⟨cols, rows2⟩ iv tv cv ∧
    secondFit ⟨cols, rows1⟩ ov iv tv cv = secondFit ⟨cols, rows2⟩ ov iv tv cv := by
  have hx1perm : (x1Sel ⟨cols, rows1⟩ iv cv).Perm (x1Sel ⟨cols, rows2⟩ iv cv) :=
    hperm.map _
  have hflag1 : hasNonzeroConstCol (iv ++ cv).length (x1Sel ⟨cols, rows1⟩ iv cv) =
      hasNonzeroConstCol (iv ++ cv).length (x1Sel ⟨cols, rows2⟩ iv cv) :=
    hasNonzeroConstCol_perm hx1perm
  have hx1fun : x1RowCells ⟨cols, rows1⟩ iv cv = x1RowCells ⟨cols, rows2⟩ iv cv := by
    funext r
    unfold x1RowCells
    rw [hflag1]
  have hobs1 : (mkObs (x1Design ⟨cols, rows1⟩ iv cv).2 (treatCol ⟨cols, rows1⟩ tv)).Perm
      (mkObs (x1Design ⟨cols, rows2⟩ iv cv).2 (treatCol ⟨cols, rows2⟩ tv)) := by
    rw [x1Design_snd, x1Design_snd, hx1fun]
    unfold treatCol
    rw [mkObs_map_map, mkObs_map_map]
    exact hperm.map _
  have hnames1 : (x1Design ⟨cols, rows1⟩ iv cv).1 = (x1Design ⟨cols, rows2⟩ iv cv).1 := by
    rw [x1Design_fst, x1Design_fst, hflag1]
  have hfirst : firstFit ⟨cols, rows1⟩ iv tv cv = firstFit ⟨cols, rows2⟩ iv tv cv := by
    unfold firstFit
    rw [hnames1]
    exact olsStats_perm _ hobs1
  have hdhatfun : dhatRowVal ⟨cols, rows1⟩ iv tv cv =
      dhatRowVal ⟨cols, rows2⟩ iv tv cv := by
    funext r
    unfold dhatRowVal
    rw [hx1fun, hfirst]
  have hpostcols : (postFrame ⟨cols, rows1⟩ iv tv cv).cols =
      (postFrame ⟨cols, rows2⟩ iv tv cv).cols := by
    rw [postFrame_cols, postFrame_cols]
  have hpostfun : postRow ⟨cols, rows1⟩ iv tv cv = postRow ⟨cols, rows2⟩ iv tv cv := by
    funext r
    unfold postRow
    rw [hdhatfun]
  have hx2perm : (x2Sel ⟨cols, rows1⟩ iv tv cv).Perm (x2Sel ⟨cols, rows2⟩ iv tv cv) := by
    rw [x2Sel_eq_map, x2Sel_eq_map, hpostfun, hpostcols]
    exact hperm.map _
  have hflag2 : hasNonzeroConstCol ("D_hat" :: cv).length (x2Sel ⟨cols, rows1⟩ iv tv cv) =
      hasNonzeroConstCol ("D_hat" :: cv).length (x2Sel ⟨cols, rows2⟩ iv tv cv) :=
    hasNonzeroConstCol_perm hx2perm
  have hnames2 : (x2Design ⟨cols, rows1⟩ iv tv cv).1 =
      (x2Design ⟨cols, rows2⟩ iv tv cv).1 := by
    rw [x2Design_fst, x2Design_fst, hflag2]
  have hobs2 : (mkObs (x2Design ⟨cols, rows1⟩ iv tv cv).2
        (outColPost ⟨cols, rows1⟩ ov iv tv cv)).Perm
      (mkObs (x2Design ⟨cols, rows2⟩ iv tv cv).2
        (outColPost ⟨cols, rows2⟩ ov iv tv cv)) := by
    rw [x2Design_snd_cases, x2Design_snd_cases, ← hflag2]
    by_cases hb : hasNonzeroConstCol ("D_hat" :: cv).length (x2Sel ⟨cols, rows1⟩ iv tv cv) = true
    · rw [if_pos hb, if_pos hb, x2Sel_eq_map, x2Sel_eq_map, outColPost_eq_map,
        outColPost_eq_map, hpostfun, hpostcols, mkObs_map_map, mkObs_map_map]
      exact hperm.map _
    · rw [if_neg hb, if_neg hb, x2Sel_eq_map, x2Sel_eq_map, outColPost_eq_map,
        outColPost_eq_map, hpostfun, hpostcols, List.map_map, List.map_map,
        mkObs_map_map, mkObs_map_map]
      exact hperm.map _
  have hsecond : secondFit ⟨cols, rows1⟩ ov iv tv cv =
      secondFit ⟨cols, rows2⟩ ov iv tv cv := by
    unfold secondFit
    rw [hnames2]
    exact olsStats_perm _ hobs2
  refine ⟨?_, hfirst, hsecond⟩
  unfold performResult
  rw [hnames2, hfirst, hsecond]

/-- C8: reordering the rows of the slice (same multiset of rows, different
physical order) leaves everything the estimator returns — causal estimate,
(squared) standard error, p-value determinant, R², first-stage F and its
p-value determinant, the whole per-stage record — unchanged; only the
post-call frame differs, by exactly the same row permutation.  Every
statistic is a function of the Gram matrix, cross moments and row count,
which are sums over rows. -/
theorem C8_row_order_invariance {d1 d2 : DataFrame} {ov tv disp : String}
    {iv cv : List String}
    (hwf : Wf d1) (hp : ColsPresent d1 (refCols ov tv iv cv))
    (hc : CleanCols d1 (refCols ov tv iv cv))
    (hcols : d1.cols = d2.cols) (hperm : d1.rows.Perm d2.rows) :
    Except.map (fun t => (t.2.1, t.2.2)) (perform_2sls_analysis d1 ov iv tv cv disp) =
      Except.map (fun t => (t.2.1, t.2.2)) (perform_2sls_analysis d2 ov iv tv cv disp) ∧
    (∀ s : Cell, mkStageRecord s (performResult d1 ov iv tv cv) =
      mkStageRecord s (performResult d2 ov iv tv cv)) := by
  obtain ⟨cols1, rows1⟩ := d1
  obtain ⟨cols2, rows2⟩ := d2
  have hcc : cols1 = cols2 := hcols
  subst hcc
  have hpp : rows1.Perm rows2 := hperm
  have hwf2 : Wf ⟨cols1, rows2⟩ := fun r hr => hwf r (hpp.mem_iff.mpr hr)
  have hp2 : ColsPresent ⟨cols1, rows2⟩ (refCols ov tv iv cv) := hp
  have hc2 : CleanCols ⟨cols1, rows2⟩ (refCols ov tv iv cv) :=
    fun c hcm r hr => hc c hcm r (hpp.mem_iff.mpr hr)
  obtain ⟨hres, hfirst, hsecond⟩ := perform_views_perm hpp ov tv iv cv
  constructor
  · rw [perform_eq_clean hwf hp hc, perform_eq_clean hwf2 hp2 hc2]
    simp only [Except.map]
    rw [hres, hfirst, hsecond]
  · intro s
    rw [hres]

/-- Witness for C8: the stage-1 slice and its rotation. -/
theorem C8_row_order_invariance_witness :
    (Except.map (fun t => (t.2.1, t.2.2))
        (perform_2sls_analysis exSlice "y" ["z"] "d" ["c1"] "none") =
      Except.map (fun t => (t.2.1, t.2.2))
        (perform_2sls_analysis exSlicePerm "y" ["z"] "d" ["c1"] "none")) ∧
    (∀ s : Cell, mkStageRecord s (performResult exSlice "y" ["z"] "d" ["c1"]) =
      mkStageRecord s (performResult exSlicePerm "y" ["z"] "d" ["c1"])) :=
  C8_row_order_invariance (by decide) (by decide) (by decide) (by decide)
    (by decide)

theorem setColumn_rows_map {df : DataFrame} {t : String} (g : List Cell → Cell) :
    (setColumn df t (df.rows.map g)).rows =
      df.rows.map (fun r =>
        if t ∈ df.cols then r.set (colIdxD df.cols t) (g r) else r ++ [g r]) := by
  unfold setColumn
  by_cases ht : t ∈ df.cols
  · simp only [ht, if_true]
    exact zipWith_map_right_self _ _ _
  · simp only [ht, if_false]
    exact zipWith_map_right_self _ _ _

theorem getColumn_setColumn_self {df : DataFrame} {t : String} (hwf : Wf df)
    (g : List Cell → Cell) :
    getColumn (setColumn df t (df.rows.map g)) t = .ok (df.rows.map g) := by
  rw [getColumn_eq_ok target_mem_setColumn_cols, setColumn_rows_map g, List.map_map]
  congr 1
  refine List.map_congr_left ?_
  intro r hr
  show cellAt (setColumn df t (df.rows.map g)).cols t
    (if t ∈ df.cols then r.set (colIdxD df.cols t) (g r) else r ++ [g r]) = g r
  rw [setColumn_cols]
  by_cases ht : t ∈ df.cols
  · simp only [ht, if_true]
    exact cellAt_set_self ht (hwf r hr)
  · simp only [ht, if_false]
    exact cellAt_concat_self ht (hwf r hr)

theorem getColumn_setColumn_ne {df : DataFrame} {t c : String} (hwf : Wf df)
    (g : List Cell → Cell) (hc : c ∈ df.cols) (hne : c ≠ t) :
    getColumn (setColumn df t (df.rows.map g)) c = getColumn df c := by
  rw [getColumn_eq_ok (mem_setColumn_cols hc), getColumn_eq_ok hc,
    setColumn_rows_map g, List.map_map]
  congr 1
  refine List.map_congr_left ?_
  intro r hr
  show cellAt (setColumn df t (df.rows.map g)).cols c
    (if t ∈ df.cols then r.set (colIdxD df.cols t) (g r) else r ++ [g r]) =
    cellAt df.cols c r
  rw [setColumn_cols]
  by_cases ht : t ∈ df.cols
  · simp only [ht, if_true]
    exact cellAt_set_ne ht hc hne
  · simp only [ht, if_false]
    exact cellAt_concat_ne hc (hwf r hr)

/-- C9: `impute_opponent_rank` replaces exactly the NaN entries of
`opponent_league_rank_prev` with the placeholder rank (default 25), keeps
every non-missing entry of that column, and leaves every other column (and
the column list and row count) unchanged.  The `df.rows ≠ []` hypothesis
reflects that pandas' row-wise `apply` on an empty frame does not produce an
assignable column. -/
theorem C9_impute_placeholder {df : DataFrame} {p : ℚ} (hwf : Wf df)
    (_hrows : df.rows ≠ [])
    (hcol : "opponent_league_rank_prev" ∈ df.cols) :
    ∃ df', impute_opponent_rank df p = .ok df' ∧
      df'.cols = df.cols ∧
      df'.rows.length = df.rows.length ∧
      getColumn df' "opponent_league_rank_prev" =
        .ok (df.rows.map (fun r =>
          match cellAt df.cols "opponent_league_rank_prev" r with
          | none => some p
          | some v => some v)) ∧
      (∀ c ∈ df.cols, c ≠ "opponent_league_rank_prev" →
        getColumn df' c = getColumn df c) ∧
      impute_opponent_rank df = impute_opponent_rank df 25 := by
  have himp : impute_opponent_rank df p =
      .ok (setColumn df "opponent_league_rank_prev"
        (df.rows.map (fun r =>
          match cellAt df.cols "opponent_league_rank_prev" r with
          | none => some p
          | some v => some v))) := by
    unfold impute_opponent_rank
    simp [hcol]
  refine ⟨_, himp, ?_, ?_, getColumn_setColumn_self hwf _, ?_, rfl⟩
  · rw [setColumn_cols]
    simp [hcol]
  · rw [setColumn_rows_map]
    simp
  · intro c hcm hne
    exact getColumn_setColumn_ne hwf _ hcm hne

/-- Witness for C9 at a 2-row frame with one NaN and one finite rank. -/
theorem C9_impute_placeholder_witness :
    ∃ df', impute_opponent_rank imputeDf 25 = .ok df' ∧
      df'.cols = imputeDf.cols ∧
      df'.rows.length = imputeDf.rows.length ∧
      getColumn df' "opponent_league_rank_prev" =
        .ok (imputeDf.rows.map (fun r =>
          match cellAt imputeDf.cols "opponent_league_rank_prev" r with
          | none => some 25
          | some v => some v)) ∧
      (∀ c ∈ imputeDf.cols, c ≠ "opponent_league_rank_prev" →
        getColumn df' c = getColumn imputeDf c) ∧
      impute_opponent_rank imputeDf = impute_opponent_rank imputeDf 25 :=
  C9_impute_placeholder (by decide) (by decide) (by decide)

/-- C10: output gating is substring-based, exactly Python's `in`: on a clean
slice the regression summaries are printed if and only if `"summary"` occurs
as a contiguous substring of `display`, and the chart artifact is produced if
and only if `"plot"` occurs as a contiguous substring of `display` — not by
equality of `display` against a fixed set of mode values.  (The variables
dict must carry `instrument_vars`; with it absent the plotting code would
raise while joining the names instead of producing the chart.) -/
theorem C10_display_substring {df : DataFrame} {ov tv : String} {iv cv : List String}
    (hwf : Wf df) (hp : ColsPresent df (refCols ov tv iv cv))
    (hc : CleanCols df (refCols ov tv iv cv))
    (vs : VariablesSpec) (_hvi : vs.instrument_vars.isSome = true)
    (results : List StageRecord) (dir filename : String) :
    ∀ display : String,
      printedSummaries (perform_2sls_analysis df ov iv tv cv display) =
        occursIn "summary" display ∧
      (plot_causal_effect vs results dir display filename).isSome =
        occursIn "plot" display := by
  intro display
  constructor
  · rw [perform_eq_clean hwf hp hc]
    by_cases hocc : occursIn "summary" display = true
    · simp [printedSummaries, performLog, hocc]
    · rw [Bool.not_eq_true] at hocc
      simp [printedSummaries, performLog, hocc]
  · unfold plot_causal_effect
    by_cases hocc : occursIn "plot" display = true
    · simp [hocc]
    · rw [Bool.not_eq_true] at hocc
      simp [hocc]

instance : IsTrans Cell cellLeR where
  trans a b c hab hbc := by
    cases a <;> cases b <;> cases c <;> simp_all [cellLeR, cellLe]
    exact le_trans hab hbc

instance : IsAntisymm Cell cellLeR where
  antisymm a b hab hba := by
    cases a <;> cases b <;> simp_all [cellLeR, cellLe]
    exact le_antisymm hab hba

instance : IsTotal Cell cellLeR where
  total a b := by
    cases a <;> cases b <;> simp [cellLeR, cellLe]
    exact le_total _ _

theorem uniqueSortedStages_sorted (l : List Cell) :
    List.Sorted cellLeR (uniqueSortedStages l) :=
  List.sorted_insertionSort _ _

theorem uniqueSortedStages_nodup (l : List Cell) : (uniqueSortedStages l).Nodup :=
  ((List.perm_insertionSort cellLeR l.dedup).nodup_iff).mpr (List.nodup_dedup l)

theorem mem_uniqueSortedStages {x : Cell} {l : List Cell} :
    x ∈ uniqueSortedStages l ↔ x ∈ l := by
  unfold uniqueSortedStages
  rw [(List.perm_insertionSort cellLeR l.dedup).mem_iff, List.mem_dedup]

theorem uniqueSortedStages_filter (q : Cell → Bool) (l : List Cell) :
    uniqueSortedStages (l.filter q) = (uniqueSortedStages l).filter q := by
  refine List.eq_of_perm_of_sorted ?_ (uniqueSortedStages_sorted _)
    ((uniqueSortedStages_sorted l).filter q)
  rw [List.perm_ext_iff_of_nodup (uniqueSortedStages_nodup _)
    ((uniqueSortedStages_nodup l).filter q)]
  intro a
  rw [mem_uniqueSortedStages, List.mem_filter, List.mem_filter, mem_uniqueSortedStages]

theorem map_filter_comp {α β : Type} (f : α → β) (p : β → Bool) (l : List α) :
    (l.filter (fun a => p (f a))).map f = (l.map f).filter p := by
  induction l with
  | nil => rfl
  | cons a t ih => by_cases h : p (f a) = true <;> simp [List.filter_cons, h, ih]

theorem stageFilter_wf {df : DataFrame} {s : Cell} (hwf : Wf df) :
    Wf (stageFilter df s) :=
  fun r hr => hwf r (List.mem_of_mem_filter hr)

theorem stageFilter_colsPresent {df : DataFrame} {s : Cell} {names : List String}
    (hp : ColsPresent df names) : ColsPresent (stageFilter df s) names := hp

theorem stageFilter_clean {df : DataFrame} {s : Cell} {names : List String}
    (hc : CleanCols df names) : CleanCols (stageFilter df s) names :=
  fun c hcm r hr => hc c hcm r (List.mem_of_mem_filter hr)

/-- The loop of `analyze_2sls_by_stage` on a clean frame: one record, one
summaries entry and one log block per listed stage, each computed from that
stage's filtered copy of the frame and nothing else. -/
theorem analyzeGo_clean {df : DataFrame} {ov tv disp : String} {iv cv : List String}
    (hwf : Wf df) (hp : ColsPresent df (refCols ov tv iv cv))
    (hc : CleanCols df (refCols ov tv iv cv)) :
    ∀ stages : List Cell,
      analyzeGo df ov iv tv cv disp stages =
        .ok (stages.map (stageRecordOf df ov iv tv cv),
          stages.map (fun s => (s, stageSummariesOf df ov iv tv cv s)),
          (stages.map (stageLogOf df ov iv tv cv disp)).flatten) := by
  intro stages
  induction stages with
  | nil => rfl
  | cons s rest ih =>
    show ((perform_2sls_analysis (stageFilter df s).copy ov iv tv cv disp).bind _) = _
    rw [@perform_eq_clean ((stageFilter df s).copy) ov tv disp iv cv
      (stageFilter_wf hwf) (stageFilter_colsPresent hp) (stageFilter_clean hc),
      ok_bind, ih, ok_bind]
    simp only [List.map_cons, List.flatten_cons]
    rfl

/-- The orchestrator on a clean frame: distinct stages, ascending, one
record per stage from that stage's slice; the caller's frame comes back
untouched. -/
theorem analyze_eq_clean {df : DataFrame} {ov tv disp : String} {iv cv : List String}
    (hwf : Wf df) (hp : ColsPresent df (refCols ov tv iv cv))
    (hc : CleanCols df (refCols ov tv iv cv)) (hstage : "stage" ∈ df.cols) :
    analyze_2sls_by_stage df ov iv tv cv disp =
      .ok ((uniqueSortedStages (df.rows.map (cellAt df.cols "stage"))).map
          (stageRecordOf df ov iv tv cv),
        (uniqueSortedStages (df.rows.map (cellAt df.cols "stage"))).map
          (fun s => (s, stageSummariesOf df ov iv tv cv s)),
        ((uniqueSortedStages (df.rows.map (cellAt df.cols "stage"))).map
          (stageLogOf df ov iv tv cv disp)).flatten,
        df) := by
  unfold analyze_2sls_by_stage
  rw [getColumn_eq_ok hstage, ok_bind, analyzeGo_clean hwf hp hc, ok_bind]

theorem analyze_frame_unchanged {df : DataFrame} {ov tv disp : String}
    {iv cv : List String}
    {out : List StageRecord × List (Cell × StageSummaries) × List LogLine × DataFrame}
    (h : analyze_2sls_by_stage df ov iv tv cv disp = .ok out) : out.2.2.2 = df := by
  unfold analyze_2sls_by_stage at h
  cases h1 : getColumn df "stage" with
  | error e =>
    rw [h1, err_bind] at h
    exact Except.noConfusion h
  | ok col =>
    rw [h1, ok_bind] at h
    cases h2 : analyzeGo df ov iv tv cv disp (uniqueSortedStages col) with
    | error e =>
      rw [h2, err_bind] at h
      exact Except.noConfusion h
    | ok t =>
      rw [h2, ok_bind] at h
      cases h
      rfl

theorem stageFilter_dropStage {df : DataFrame} {v s : Cell}
    (hs : cellEqNum s v = false) :
    stageFilter (dropStage df v) s = stageFilter df s := by
  unfold stageFilter dropStage
  congr 1
  rw [List.filter_filter]
  refine List.filter_congr ?_
  intro r _
  cases hcell : cellAt df.cols "stage" r with
  | none => simp [cellEqNum]
  | some x =>
    cases s with
    | none => simp [cellEqNum]
    | some y =>
      by_cases hxy : (x == y) = true
      · have hx : x = y := by rwa [beq_iff_eq] at hxy
        subst hx
        simp only [cellEqNum] at hs ⊢
        simp [hxy, hs]
      · simp only [cellEqNum]
        simp [hxy]

theorem dropStage_stageCol {df : DataFrame} {v : Cell} :
    (dropStage df v).rows.map (cellAt (dropStage df v).cols "stage") =
      (df.rows.map (cellAt df.cols "stage")).filter (fun c => !cellEqNum c v) := by
  show (df.rows.filter _).map (cellAt df.cols "stage") = _
  rw [← map_filter_comp (cellAt df.cols "stage") (fun c => !cellEqNum c v) df.rows]

/-- C2: on a clean frame, `analyze_2sls_by_stage` returns exactly one result
per distinct value of the `stage` column, in ascending stage order (sorted,
no duplicates, stage set = set of stage values present), each computed only
from the rows whose stage equals that stage; and deleting all rows of one
stage value `v` removes exactly `v`'s record while every other stage's
record is unchanged. -/
theorem C2_stage_orchestration {df : DataFrame} {ov tv disp : String}
    {iv cv : List String}
    (hwf : Wf df) (hp : ColsPresent df (refCols ov tv iv cv))
    (hc : CleanCols df (refCols ov tv iv cv)) (hstage : "stage" ∈ df.cols)
    (_hsc : ∀ r ∈ df.rows, (cellAt df.cols "stage" r).isSome = true) (v : Cell) :
    ∃ recs sums log,
      analyze_2sls_by_stage df ov iv tv cv disp = .ok (recs, sums, log, df) ∧
      recs = (uniqueSortedStages (df.rows.map (cellAt df.cols "stage"))).map
        (stageRecordOf df ov iv tv cv) ∧
      recs.map (fun r => r.stage) =
        uniqueSortedStages (df.rows.map (cellAt df.cols "stage")) ∧
      List.Sorted cellLeR (recs.map (fun r => r.stage)) ∧
      (recs.map (fun r => r.stage)).Nodup ∧
      (∀ s : Cell, s ∈ recs.map (fun r => r.stage) ↔
        s ∈ df.rows.map (cellAt df.cols "stage")) ∧
      (∃ recs' sums' log',
        analyze_2sls_by_stage (dropStage df v) ov iv tv cv disp =
          .ok (recs', sums', log', dropStage df v) ∧
        recs' = recs.filter (fun r => !cellEqNum r.stage v)) := by
  have hmapstage :
      ((uniqueSortedStages (df.rows.map (cellAt df.cols "stage"))).map
        (stageRecordOf df ov iv tv cv)).map (fun r => r.stage) =
      uniqueSortedStages (df.rows.map (cellAt df.cols "stage")) := by
    rw [List.map_map]
    have h2 : ((uniqueSortedStages (df.rows.map (cellAt df.cols "stage"))).map
        ((fun r => r.stage) ∘ stageRecordOf df ov iv tv cv)) =
        (uniqueSortedStages (df.rows.map (cellAt df.cols "stage"))).map id :=
      List.map_congr_left (fun s _ => rfl)
    rw [h2, List.map_id]
  refine ⟨_, _, _, analyze_eq_clean hwf hp hc hstage, rfl, hmapstage, ?_, ?_, ?_, ?_⟩
  · rw [hmapstage]
    exact uniqueSortedStages_sorted _
  · rw [hmapstage]
    exact uniqueSortedStages_nodup _
  · intro s
    rw [hmapstage, mem_uniqueSortedStages]
  · have hwf2 : Wf (dropStage df v) := fun r hr => hwf r (List.mem_of_mem_filter hr)
    have hp2 : ColsPresent (dropStage df v) (refCols ov tv iv cv) := hp
    have hc2 : CleanCols (dropStage df v) (refCols ov tv iv cv) :=
      fun c hcm r hr => hc c hcm r (List.mem_of_mem_filter hr)
    have hstage2 : "stage" ∈ (dropStage df v).cols := hstage
    refine ⟨_, _, _, analyze_eq_clean hwf2 hp2 hc2 hstage2, ?_⟩
    rw [dropStage_stageCol, uniqueSortedStages_filter]
    have hcong : ((uniqueSortedStages (df.rows.map (cellAt df.cols "stage"))).filter
          (fun c => !cellEqNum c v)).map (stageRecordOf (dropStage df v) ov iv tv cv) =
        ((uniqueSortedStages (df.rows.map (cellAt df.cols "stage"))).filter
          (fun c => !cellEqNum c v)).map (stageRecordOf df ov iv tv cv) := by
      refine List.map_congr_left ?_
      intro s hsm
      rw [List.mem_filter] at hsm
      have hsv : cellEqNum s v = false := by
        have h3 := hsm.2
        rwa [Bool.not_eq_true'] at h3
      unfold stageRecordOf
      rw [stageFilter_dropStage hsv]
    have hfc : (uniqueSortedStages (df.rows.map (cellAt df.cols "stage"))).filter
          (fun c => !cellEqNum c v) =
        (uniqueSortedStages (df.rows.map (cellAt df.cols "stage"))).filter
          (fun a => !cellEqNum (stageRecordOf df ov iv tv cv a).stage v) :=
      List.filter_congr (fun a _ => rfl)
    rw [hcong, hfc,
      map_filter_comp (stageRecordOf df ov iv tv cv) (fun r => !cellEqNum r.stage v)]

/-- Witness for C2 at the clean 2-stage frame, deleting stage 1. -/
theorem C2_stage_orchestration_witness :
    ∃ recs sums log,
      analyze_2sls_by_stage exDf "y" ["z"] "d" ["c1"] "none" = .ok (recs, sums, log, exDf) ∧
      recs = (uniqueSortedStages (exDf.rows.map (cellAt exDf.cols "stage"))).map
        (stageRecordOf exDf "y" ["z"] "d" ["c1"]) ∧
      recs.map (fun r => r.stage) =
        uniqueSortedStages (exDf.rows.map (cellAt exDf.cols "stage")) ∧
      List.Sorted cellLeR (recs.map (fun r => r.stage)) ∧
      (recs.map (fun r => r.stage)).Nodup ∧
      (∀ s : Cell, s ∈ recs.map (fun r => r.stage) ↔
        s ∈ exDf.rows.map (cellAt exDf.cols "stage")) ∧
      (∃ recs' sums' log',
        analyze_2sls_by_stage (dropStage exDf (some 1)) "y" ["z"] "d" ["c1"] "none" =
          .ok (recs', sums', log', dropStage exDf (some 1)) ∧
        recs' = recs.filter (fun r => !cellEqNum r.stage (some 1))) :=
  C2_stage_orchestration (by decide) (by decide) (by decide) (by decide) (by decide)
    (some 1)

/-- C6: `analyze_2sls_by_stage` leaves the caller's dataset unchanged — the
post-call state of `stages_df` returned by the embedding is the input frame
itself, unconditionally, because each stage's estimation runs on a `.copy()`
of the filtered slice (the estimator's in-place `D_hat` write lands on that
scratch copy) — and no state written during one stage's estimation is read
by any other stage's: each stage's record is a function of that stage's
filtered rows alone. -/
theorem C6_no_cross_stage_state {df : DataFrame} {ov tv disp : String}
    {iv cv : List String}
    (hwf : Wf df) (hp : ColsPresent df (refCols ov tv iv cv))
    (hc : CleanCols df (refCols ov tv iv cv)) (hstage : "stage" ∈ df.cols) :
    (∀ out, analyze_2sls_by_stage df ov iv tv cv disp = .ok out → out.2.2.2 = df) ∧
    (∃ recs sums log,
      analyze_2sls_by_stage df ov iv tv cv disp = .ok (recs, sums, log, df) ∧
      recs = (uniqueSortedStages (df.rows.map (cellAt df.cols "stage"))).map
        (stageRecordOf df ov iv tv cv) ∧
      ∀ s : Cell, stageRecordOf df ov iv tv cv s =
        mkStageRecord s (performResult ((stageFilter df s).copy) ov iv tv cv)) := by
  constructor
  · intro out h
    exact analyze_frame_unchanged h
  · exact ⟨_, _, _, analyze_eq_clean hwf hp hc hstage, rfl, fun s => rfl⟩

/-- Witness for C6 at the clean 2-stage frame. -/
theorem C6_no_cross_stage_state_witness :
    (∀ out, analyze_2sls_by_stage exDf "y" ["z"] "d" ["c1"] "none" = .ok out →
      out.2.2.2 = exDf) ∧
    (∃ recs sums log,
      analyze_2sls_by_stage exDf "y" ["z"] "d" ["c1"] "none" = .ok (recs, sums, log, exDf) ∧
      recs = (uniqueSortedStages (exDf.rows.map (cellAt exDf.cols "stage"))).map
        (stageRecordOf exDf "y" ["z"] "d" ["c1"]) ∧
      ∀ s : Cell, stageRecordOf exDf "y" ["z"] "d" ["c1"] s =
        mkStageRecord s (performResult ((stageFilter exDf s).copy) "y" ["z"] "d" ["c1"])) :=
  C6_no_cross_stage_state (by decide) (by decide) (by decide) (by decide)

/-- Witness for C10: `display = "summary plot"` is none of the bare mode
words, yet triggers both the summaries and the chart, because both
`"summary"` and `"plot"` occur in it as substrings. -/
theorem C10_display_substring_witness :
    (printedSummaries (perform_2sls_analysis exSlice "y" ["z"] "d" ["c1"]
        "summary plot") = occursIn "summary" "summary plot" ∧
      (plot_causal_effect ⟨some "y", some "d", some ["z"], some ["c1"]⟩ []
        "plots" "summary plot" "f.png").isSome = occursIn "plot" "summary plot") ∧
    occursIn "summary" "summary plot" = true ∧
    occursIn "plot" "summary plot" = true ∧
    "summary plot" ≠ "summary" ∧ "summary plot" ≠ "plot" :=
  ⟨C10_display_substring (by decide) (by decide) (by decide)
      ⟨some "y", some "d", some ["z"], some ["c1"]⟩ (by decide) [] "plots" "f.png"
      "summary plot",
    by decide, by decide, by decide, by decide⟩

end IV2SLS
